import Mathlib

/-!
# Perk controller (server/src/controllers/perkController.js)

A shallow embedding of the request handlers `filterPerks`, `createPerk` and
`updatePerk`, of the two Joi schemas they validate with, and of the
persistence calls they make on the `Perk` model.

* JavaScript values are the inductive `JsVal`; numbers that a JSON body can
  carry are finite and are taken as rationals.
* A JavaScript object is its list of own entries, `Obj`; `WellFormed` says
  that every key occurs once, as it does in any object.
* A Joi object schema is the list of its keys with their child schemas;
  `validate` clones the input as Joi does, runs Joi's loop over the children
  on the clone and then treats the undeclared keys. An own `__proto__` entry
  of the input becomes the prototype of the clone (`JsObject`), and a key is
  read through it.
* Joi reads numeric text as a number (`convert` is on by default).  The
  reading itself is the parameter `toNumber`; every theorem holds for each
  such reading.
* The `Perk` model is imported by the controller from `../models/Perk.js`.
  The handlers are written against the interface `Persistence`; `memDb` is an
  in-memory store implementing it, with the typed records of the data model.
-/

namespace PerkController

/-! ## JavaScript values and objects -/

/-- A JavaScript value as a request can carry it. -/
inductive JsVal where
  | undefined
  | null
  | bool (b : Bool)
  | num (q : ℚ)
  | str (s : String)
  | arr (items : List JsVal)
  | obj (props : List (String × JsVal))

/-- An object: its own entries, in insertion order. -/
abbrev Obj := List (String × JsVal)

/-- The keys of an object, `Object.keys(o)`. -/
def objectKeys (o : Obj) : List String := o.map Prod.fst

/-- Every key occurs once. -/
def WellFormed (o : Obj) : Prop := (objectKeys o).Nodup

instance (o : Obj) : Decidable (WellFormed o) :=
  inferInstanceAs (Decidable (objectKeys o).Nodup)

/-- Property read `o[k]`: `undefined` when the key is absent. -/
def getProp (o : Obj) (k : String) : JsVal := (o.lookup k).getD JsVal.undefined

/-- Property write `o[k] = v`: in place when the key exists, else appended. -/
def setProp (o : Obj) (k : String) (v : JsVal) : Obj :=
  if k ∈ objectKeys o then o.map (fun e => if e.1 = k then (k, v) else e)
  else o ++ [(k, v)]

/-- Property removal `delete o[k]`. -/
def deleteProp (o : Obj) (k : String) : Obj := o.filter (fun e => e.1 ≠ k)

/-- An object together with the prototype that an assignment to `__proto__`
gave it; `none` is the default prototype `Object.prototype`. -/
structure JsObject where
  own : Obj
  proto : Option JsVal

/-- What the setter of `__proto__` installs as prototype: an object, a list or
`null`; any other value is ignored. -/
def protoOf : JsVal → Option JsVal
  | JsVal.null => some JsVal.null
  | JsVal.arr items => some (JsVal.arr items)
  | JsVal.obj props => some (JsVal.obj props)
  | _ => none

/-- Joi's shallow clone of the input, `Object.assign(Object.create(..), body)`:
every own entry of the body is assigned to the clone. The assignment of an own
`__proto__` entry (`JSON.parse` creates one) goes to the prototype setter and
adds no entry. -/
def cloneObject (body : Obj) : JsObject :=
  ⟨body.filter (fun e => e.1 ≠ "__proto__"), protoOf (getProp body "__proto__")⟩

/-- Property read `o[k]`, for a key that `Object.prototype` and
`Array.prototype` do not define (every key of the schema is such a key): an
own entry first, else the entry of the prototype object. -/
def readProp (o : JsObject) (k : String) : JsVal :=
  if k ∈ objectKeys o.own then getProp o.own k
  else match o.proto with
    | some (JsVal.obj props) => getProp props k
    | _ => JsVal.undefined

/-- The test `v !== undefined`. -/
def isDefined : JsVal → Bool
  | JsVal.undefined => false
  | _ => true

/-- JavaScript truthiness, as used by `if (title)`. -/
def truthy : JsVal → Bool
  | JsVal.undefined => false
  | JsVal.null => false
  | JsVal.bool b => b
  | JsVal.num q => decide (q ≠ 0)
  | JsVal.str s => decide (s ≠ "")
  | JsVal.arr _ => true
  | JsVal.obj _ => true

/-- The `length` of a JavaScript string: its number of UTF-16 code units. -/
def jsLength (s : String) : Nat :=
  (s.data.map (fun c => if c.toNat < 65536 then 1 else 2)).sum

/-! ## The Joi schemas -/

/-- The first violation Joi reports: the offending key and the rule code.
`error.message` is Joi's rendering of it. -/
structure JoiError where
  key : String
  code : String
deriving DecidableEq

/-- The rule `Joi.string().min(n)`, with or without `.allow('')`, applied to a
defined value. -/
def joiString (min : Nat) (allowEmpty : Bool) (key : String) :
    JsVal → Except JoiError JsVal
  | JsVal.str s =>
    if s = "" then
      if allowEmpty then Except.ok (JsVal.str s)
      else Except.error ⟨key, "string.empty"⟩
    else if jsLength s < min then Except.error ⟨key, "string.min"⟩
    else Except.ok (JsVal.str s)
  | _ => Except.error ⟨key, "string.base"⟩

/-- The rule `Joi.string().valid(...)` applied to a defined value. -/
def joiValid (allowed : List String) (key : String) :
    JsVal → Except JoiError JsVal
  | JsVal.str s =>
    if s ∈ allowed then Except.ok (JsVal.str s)
    else Except.error ⟨key, "any.only"⟩
  | _ => Except.error ⟨key, "any.only"⟩

/-- The range test of `Joi.number().min(lo).max(hi)`. -/
def joiRange (lo hi : ℚ) (key : String) (q : ℚ) : Except JoiError JsVal :=
  if q < lo then Except.error ⟨key, "number.min"⟩
  else if hi < q then Except.error ⟨key, "number.max"⟩
  else Except.ok (JsVal.num q)

/-- The largest safe integer, `Number.MAX_SAFE_INTEGER`. -/
def maxSafeInteger : ℚ := 9007199254740991

/-- The base test of `Joi.number()` on a number, before the rules: a number
outside the safe integers is a violation. -/
def joiSafe (lo hi : ℚ) (key : String) (q : ℚ) : Except JoiError JsVal :=
  if maxSafeInteger < q ∨ q < -maxSafeInteger then Except.error ⟨key, "number.unsafe"⟩
  else joiRange lo hi key q

/-- The rule `Joi.number().min(lo).max(hi)` applied to a defined value; text
is read as a number by `toNumber` first. -/
def joiNumber (toNumber : String → Option ℚ) (lo hi : ℚ) (key : String) :
    JsVal → Except JoiError JsVal
  | JsVal.num q => joiSafe lo hi key q
  | JsVal.str t =>
    match toNumber t with
    | some q => joiSafe lo hi key q
    | none => Except.error ⟨key, "number.base"⟩
  | _ => Except.error ⟨key, "number.base"⟩

/-- A child schema: presence flag, `.default(...)` value, and the rule for a
defined value.  An `undefined` input fails when required, else yields the
default if there is one, else stays `undefined`. -/
def joiChild (required : Bool) (dflt : Option JsVal)
    (rule : String → JsVal → Except JoiError JsVal) (key : String) :
    JsVal → Except JoiError JsVal
  | JsVal.undefined =>
    if required then Except.error ⟨key, "any.required"⟩
    else match dflt with
      | some d => Except.ok d
      | none => Except.ok JsVal.undefined
  | v => rule key v

/-- The values of `category`. -/
def categories : List String := ["food", "tech", "travel", "fitness", "other"]

/-- The keys of `perkSchema`, in declaration order. -/
def schemaKeys : List String :=
  ["title", "description", "category", "discountPercent", "merchant"]

/-- A key of an object schema with its child schema: presence flag,
`.default(...)` value and the rule for a defined value. -/
structure Child where
  key : String
  required : Bool
  dflt : Option JsVal
  rule : String → JsVal → Except JoiError JsVal

/-- The schema `perkSchema`: no key is required. -/
def perkSchema (toNumber : String → Option ℚ) : List Child :=
  [ ⟨"title", false, none, joiString 2 false⟩,
    ⟨"description", false, none, joiString 0 true⟩,
    ⟨"category", false, some (JsVal.str "other"), joiValid categories⟩,
    ⟨"discountPercent", false, some (JsVal.num 0), joiNumber toNumber 0 100⟩,
    ⟨"merchant", false, none, joiString 0 true⟩ ]

/-- The adjuster `schema => schema.required()`. -/
def required (c : Child) : Child := ⟨c.key, true, c.dflt, c.rule⟩

/-- The method `schema.fork(key, adjuster)`: the schema with the child at
`key` adjusted. -/
def fork (schema : List Child) (key : String) (adjuster : Child → Child) : List Child :=
  schema.map (fun c => if c.key = key then adjuster c else c)

/-- The schema `createPerkSchema = perkSchema.fork('title', s => s.required())`. -/
def createPerkSchema (toNumber : String → Option ℚ) : List Child :=
  fork (perkSchema toNumber) "title" required

/-- The children of a schema as the validation loop runs them: each key with
the validation of its value. -/
def schemaLoop (schema : List Child) : List (String × (JsVal → Except JoiError JsVal)) :=
  schema.map (fun c => (c.key, joiChild c.required c.dflt c.rule c.key))

/-- The loop of `perkSchema` (`titleRequired = false`) and of
`createPerkSchema` (`titleRequired = true`), written out. -/
def schemaChildren (toNumber : String → Option ℚ) (titleRequired : Bool) :
    List (String × (JsVal → Except JoiError JsVal)) :=
  [ ("title", joiChild titleRequired none (joiString 2 false) "title"),
    ("description", joiChild false none (joiString 0 true) "description"),
    ("category",
      joiChild false (some (JsVal.str "other")) (joiValid categories) "category"),
    ("discountPercent",
      joiChild false (some (JsVal.num 0)) (joiNumber toNumber 0 100)
        "discountPercent"),
    ("merchant", joiChild false none (joiString 0 true) "merchant") ]

/-- One round of Joi's loop over the children of an object schema: validate
`value[key]`, store a defined result under the key, drop the key when a
defined input became `undefined`. -/
def validateChild (value : JsObject) (child : String × (JsVal → Except JoiError JsVal)) :
    Except JoiError JsObject :=
  match child.2 (readProp value child.1) with
  | Except.error e => Except.error e
  | Except.ok r =>
    if isDefined r then Except.ok ⟨setProp value.own child.1 r, value.proto⟩
    else if isDefined (readProp value child.1) then
      Except.ok ⟨deleteProp value.own child.1, value.proto⟩
    else Except.ok value

/-- Joi's loop over the children, stopping at the first violation
(`abortEarly`). -/
def validateChildren :
    List (String × (JsVal → Except JoiError JsVal)) → JsObject → Except JoiError JsObject
  | [], value => Except.ok value
  | child :: rest, value =>
    match validateChild value child with
    | Except.error e => Except.error e
    | Except.ok value1 => validateChildren rest value1

/-- The validation options the handlers pass. `presence: 'optional'` is Joi's
default and is carried by the children's own flags. -/
structure ValidateOptions where
  stripUnknown : Bool
  allowUnknown : Bool

/-- The options of a bare `schema.validate(body)`. -/
def defaultOptions : ValidateOptions := ⟨false, false⟩

/-- The options `updatePerk` passes. -/
def updateOptions : ValidateOptions := ⟨true, false⟩

/-- Own keys, `Object.keys(value)`, that the schema does not declare. -/
def unknownKeys (own : Obj) : List String :=
  (objectKeys own).filter (fun k => k ∉ schemaKeys)

/-- Joi's treatment of the undeclared own keys of the value: deleted under
`stripUnknown`, else the first one is a violation unless `allowUnknown`. -/
def handleUnknown (opts : ValidateOptions) (value : JsObject) : Except JoiError JsObject :=
  if opts.stripUnknown then
    Except.ok ⟨value.own.filter (fun e => e.1 ∈ schemaKeys), value.proto⟩
  else if opts.allowUnknown then Except.ok value
  else match unknownKeys value.own with
    | [] => Except.ok value
    | k :: _ => Except.error ⟨k, "object.unknown"⟩

/-- The call `schema.validate(body, opts)`: Joi clones the input, runs the
children on the clone and treats its undeclared keys; the result is the
normalized value, or the first violation. -/
def validate (schema : List Child) (opts : ValidateOptions) (body : Obj) :
    Except JoiError JsObject :=
  match validateChildren (schemaLoop schema) (cloneObject body) with
  | Except.error e => Except.error e
  | Except.ok value => handleUnknown opts value

/-- A validation that passes. -/
def accepts : Except JoiError JsVal → Bool
  | Except.ok _ => true
  | Except.error _ => false

/-- The fields of a create input other than `title` are valid: every child of
the schema but `title` accepts what it reads from the input, and the input has
no undeclared key. -/
def othersValid (toNumber : String → Option ℚ) (body : Obj) : Bool :=
  (schemaLoop (perkSchema toNumber)).all
      (fun c => decide (c.1 = "title") || accepts (c.2 (readProp (cloneObject body) c.1))) &&
    (unknownKeys (cloneObject body).own).isEmpty

/-! ## The persistence interface -/

/-- A stored perk, with the attributes of the data model. -/
structure Perk where
  id : Nat
  title : String
  description : String
  category : String
  discountPercent : ℚ
  merchant : String
  createdAt : Nat
deriving DecidableEq

/-- An error thrown by a persistence call; the handlers read its `code`. -/
structure DbError where
  code : JsVal

/-- The test `err.code === 11000`. -/
def isDuplicateKey (err : DbError) : Bool :=
  match err.code with
  | JsVal.num q => decide (q = 11000)
  | _ => false

/-- The calls the handlers make on the `Perk` model, over a store state `σ`:
`Perk.find(filter).sort(createdAt: -1)` with the filter value for `title`,
`Perk.findById(id)`, `Perk.create(fields)` and
`Perk.findByIdAndUpdate(id, $set: updates, new: true)`.
A call either throws or returns; a write also returns the new state. -/
structure Persistence (σ : Type) where
  find : σ → JsVal → Except DbError (List Perk)
  findById : σ → Nat → Except DbError (Option Perk)
  create : σ → Obj → Except DbError (Perk × σ)
  findByIdAndUpdate : σ → Nat → Obj → Except DbError (Option Perk × σ)

/-! ## The handlers -/

/-- The body of a JSON response. -/
inductive ResBody where
  | message (text : String)
  | invalid (error : JoiError)
  | perk (doc : Option Perk)
  | perks (docs : List Perk)

/-- What a handler does with the request: a JSON response with a status, or
the error handed to `next`. -/
inductive Response where
  | json (status : Nat) (body : ResBody)
  | next (err : DbError)

/-- The status of a response, when it is a JSON response. -/
def Response.status : Response → Option Nat
  | Response.json st _ => some st
  | Response.next _ => none

/-- The `catch` block shared by `createPerk` and `updatePerk`. -/
def catchWrite (err : DbError) : Response :=
  if isDuplicateKey err then
    Response.json 409 (ResBody.message "Duplicate perk for this merchant")
  else Response.next err

/-- Function `filterPerks`: `query` is `req.query`. -/
def filterPerks {σ : Type} (P : Persistence σ) (s : σ) (query : Obj) : Response :=
  let title := getProp query "title"
  if truthy title then
    match P.find s title with
    | Except.ok perks => Response.json 200 (ResBody.perks perks)
    | Except.error err => Response.next err
  else Response.json 400 (ResBody.message "Title query parameter is required")

/-- Function `createPerk`: `body` is `req.body`. The spread `...value` takes
the own entries of the normalized value. -/
def createPerk {σ : Type} (toNumber : String → Option ℚ) (P : Persistence σ)
    (s : σ) (body : Obj) : Response × σ :=
  match validate (createPerkSchema toNumber) defaultOptions body with
  | Except.error error => (Response.json 400 (ResBody.invalid error), s)
  | Except.ok value =>
    match P.create s value.own with
    | Except.ok (doc, s1) => (Response.json 201 (ResBody.perk (some doc)), s1)
    | Except.error err => (catchWrite err, s)

/-- The assignment `updates[key] = val` on the update object, as to its own
entries: an assignment to `__proto__` goes to the prototype setter and adds
no entry. -/
def assignField (updates : Obj) (key : String) (val : JsVal) : Obj :=
  if key = "__proto__" then updates else setProp updates key val

/-- The own entries of the `updates` object of `updatePerk`: every entry of
the raw body whose value is not `undefined` is assigned to it. -/
def updateFields (body : Obj) : Obj :=
  body.foldl
    (fun updates e => if isDefined e.2 then assignField updates e.1 e.2 else updates) []

/-- Function `updatePerk`: `id` is `req.params.id`, `body` is `req.body`. -/
def updatePerk {σ : Type} (toNumber : String → Option ℚ) (P : Persistence σ)
    (s : σ) (id : Nat) (body : Obj) : Response × σ :=
  match P.findById s id with
  | Except.error err => (catchWrite err, s)
  | Except.ok none => (Response.json 404 (ResBody.message "Perk not found"), s)
  | Except.ok (some _) =>
    match validate (perkSchema toNumber) updateOptions body with
    | Except.error error => (Response.json 400 (ResBody.invalid error), s)
    | Except.ok _ =>
      match P.findByIdAndUpdate s id (updateFields body) with
      | Except.ok (updatedPerk, s1) => (Response.json 200 (ResBody.perk updatedPerk), s1)
      | Except.error err => (catchWrite err, s)

/-! ## An in-memory store -/

/-- Modelled from the spec: `models/Perk.js` is missing from the sources.
The store state: the records, the next identifier and the clock that stamps
`createdAt` (§3: both are assigned by the persistence layer at creation). -/
structure Store where
  perks : List Perk
  nextId : Nat
  clock : Nat

/-- Modelled from the spec: `models/Perk.js` is missing. A text attribute
takes text (§3). -/
def castText : JsVal → Option String
  | JsVal.str s => some s
  | _ => none

/-- Modelled from the spec: `models/Perk.js` is missing. The numeric
attribute takes a number, or text read as a number (§3). -/
def castNumber (toNumber : String → Option ℚ) : JsVal → Option ℚ
  | JsVal.num q => some q
  | JsVal.str t => toNumber t
  | _ => none

/-- A supplied value is cast, an absent one (`undefined`) gives `absent`. -/
def castOr {α : Type} (cast : JsVal → Option α) (absent : Option α) : JsVal → Option α
  | JsVal.undefined => absent
  | v => cast v

/-- Modelled from the spec: `models/Perk.js` is missing. The record made from
a field set at creation, with the defaults of §3; `none` when a field does
not fit its attribute or `title` is absent. -/
def newPerk (toNumber : String → Option ℚ) (id createdAt : Nat) (fields : Obj) :
    Option Perk :=
  match castOr castText none (getProp fields "title"),
        castOr castText (some "") (getProp fields "description"),
        castOr castText (some "other") (getProp fields "category"),
        castOr (castNumber toNumber) (some 0) (getProp fields "discountPercent"),
        castOr castText (some "") (getProp fields "merchant") with
  | some t, some d, some c, some n, some m => some ⟨id, t, d, c, n, m, createdAt⟩
  | _, _, _, _, _ => none

/-- Modelled from the spec: `models/Perk.js` is missing. The effect of
`$set: updates` on a record: each supplied attribute is replaced, the others
keep their stored value (§4.2); `none` when a value does not fit. -/
def setFields (toNumber : String → Option ℚ) (p : Perk) (updates : Obj) : Option Perk :=
  match castOr castText (some p.title) (getProp updates "title"),
        castOr castText (some p.description) (getProp updates "description"),
        castOr castText (some p.category) (getProp updates "category"),
        castOr (castNumber toNumber) (some p.discountPercent)
          (getProp updates "discountPercent"),
        castOr castText (some p.merchant) (getProp updates "merchant") with
  | some t, some d, some c, some n, some m => some ⟨p.id, t, d, c, n, m, p.createdAt⟩
  | _, _, _, _, _ => none

/-- Modelled from the spec: the uniqueness constraint over `merchant` and
`title` (§3). Another record holds the same pair. -/
def duplicateOf (perks : List Perk) (p : Perk) : Bool :=
  perks.any (fun x => decide (x.id ≠ p.id ∧ x.merchant = p.merchant ∧ x.title = p.title))

/-- The error of a violated uniqueness constraint. -/
def duplicateKeyError : DbError := ⟨JsVal.num 11000⟩

/-- The error of a refused field set. -/
def castError : DbError := ⟨JsVal.undefined⟩

/-- Replace the first record with the given identifier. -/
def replaceFirst (id : Nat) (p1 : Perk) : List Perk → List Perk
  | [] => []
  | x :: xs => if x.id = id then p1 :: xs else x :: replaceFirst id p1 xs

/-- Order of `sort(createdAt: -1)`: most recent first. -/
def newerFirst (a b : Perk) : Prop := b.createdAt ≤ a.createdAt

instance : DecidableRel newerFirst := fun a b => inferInstanceAs (Decidable (b.createdAt ≤ a.createdAt))

/-- Modelled from the spec: `findExact(title, value, sort: createdAt desc)`
(§6). A value that is not text equals no stored title. -/
def Store.find (s : Store) : JsVal → Except DbError (List Perk)
  | JsVal.str t => Except.ok ((s.perks.filter (fun p => p.title = t)).insertionSort newerFirst)
  | _ => Except.ok []

/-- Modelled from the spec: `findById(id)` (§6). -/
def Store.findById (s : Store) (id : Nat) : Except DbError (Option Perk) :=
  Except.ok (s.perks.find? (fun p => p.id = id))

/-- Modelled from the spec: `insert(record)` (§6), with server-assigned
identifier and creation time. -/
def Store.create (toNumber : String → Option ℚ) (s : Store) (fields : Obj) :
    Except DbError (Perk × Store) :=
  match newPerk toNumber s.nextId s.clock fields with
  | none => Except.error castError
  | some p =>
    if duplicateOf s.perks p then Except.error duplicateKeyError
    else Except.ok (p, ⟨s.perks ++ [p], s.nextId + 1, s.clock + 1⟩)

/-- Modelled from the spec: `updateById(id, partialFields)` (§6). The
uniqueness constraint is checked when the update changes the pair. -/
def Store.findByIdAndUpdate (toNumber : String → Option ℚ) (s : Store) (id : Nat)
    (updates : Obj) : Except DbError (Option Perk × Store) :=
  match s.perks.find? (fun p => p.id = id) with
  | none => Except.ok (none, s)
  | some p =>
    match setFields toNumber p updates with
    | none => Except.error castError
    | some p1 =>
      if (p1.merchant ≠ p.merchant ∨ p1.title ≠ p.title) ∧ duplicateOf s.perks p1 = true then
        Except.error duplicateKeyError
      else Except.ok (some p1, ⟨replaceFirst id p1 s.perks, s.nextId, s.clock⟩)

/-- Modelled from the spec: the persistence collaborator of §6 as an
in-memory store (`models/Perk.js` is missing from the sources). -/
def memDb (toNumber : String → Option ℚ) : Persistence Store :=
  ⟨Store.find, Store.findById, Store.create toNumber, Store.findByIdAndUpdate toNumber⟩

/-- The constraints of the data model on a stored record. -/
def PerkOk (p : Perk) : Prop :=
  2 ≤ jsLength p.title ∧ p.category ∈ categories ∧
    0 ≤ p.discountPercent ∧ p.discountPercent ≤ 100

instance (p : Perk) : Decidable (PerkOk p) :=
  inferInstanceAs (Decidable (2 ≤ jsLength p.title ∧ p.category ∈ categories ∧
    0 ≤ p.discountPercent ∧ p.discountPercent ≤ 100))

/-- A reading that takes no text for a number. -/
def noText : String → Option ℚ := fun _ => none

/-- A sample record. -/
def samplePerk : Perk := ⟨1, "Gym pass", "", "fitness", 50, "Acme", 10⟩

/-- A store holding the sample record. -/
def sampleStore : Store := ⟨[samplePerk], 2, 11⟩

/-- A persistence double whose writes and queries all throw `err`; its
`findById` finds the sample record. -/
def failingDb (err : DbError) : Persistence Unit :=
  ⟨fun _ _ => Except.error err, fun _ _ => Except.ok (some samplePerk),
    fun _ _ => Except.error err, fun _ _ _ => Except.error err⟩

/-- A persistence double that records every field set it is handed by a
write; its `findById` finds the sample record. -/
def recordingDb : Persistence (List Obj) :=
  ⟨fun _ _ => Except.ok [], fun _ _ => Except.ok (some samplePerk),
    fun s fields => Except.ok (samplePerk, s ++ [fields]),
    fun s _ updates => Except.ok (some samplePerk, s ++ [updates])⟩

/-! ## Objects -/

theorem getProp_nil (k : String) : getProp [] k = JsVal.undefined := rfl

theorem getProp_cons (a : String) (b : JsVal) (o : Obj) (k : String) :
    getProp ((a, b) :: o) k = if k = a then b else getProp o k := by
  unfold getProp
  by_cases h : k = a
  · subst h; simp [List.lookup]
  · have : (k == a) = false := by simpa using h
    simp [List.lookup, this, h]

theorem objectKeys_cons (e : String × JsVal) (o : Obj) :
    objectKeys (e :: o) = e.1 :: objectKeys o := rfl

theorem getProp_of_not_mem (o : Obj) (k : String) (h : k ∉ objectKeys o) :
    getProp o k = JsVal.undefined := by
  induction o with
  | nil => rfl
  | cons e o ih =>
    obtain ⟨a, b⟩ := e
    simp only [objectKeys_cons, List.mem_cons, not_or] at h
    rw [getProp_cons, if_neg h.1, ih h.2]

theorem getProp_append_single (o : Obj) (k : String) (v : JsVal) (k1 : String) :
    getProp (o ++ [(k, v)]) k1 =
      if k1 ∈ objectKeys o then getProp o k1 else if k1 = k then v else JsVal.undefined := by
  induction o with
  | nil => simp [getProp_cons, getProp_nil, objectKeys]
  | cons e o ih =>
    obtain ⟨a, b⟩ := e
    rw [List.cons_append, getProp_cons, getProp_cons, objectKeys_cons, ih]
    by_cases h : k1 = a
    · simp [h]
    · simp [h]

theorem getProp_map_set (o : Obj) (k : String) (v : JsVal) (k1 : String) :
    getProp (o.map (fun e => if e.1 = k then (k, v) else e)) k1 =
      if k1 = k ∧ k ∈ objectKeys o then v else getProp o k1 := by
  induction o with
  | nil => simp [getProp_nil, objectKeys]
  | cons e o ih =>
    obtain ⟨a, b⟩ := e
    rw [List.map_cons, objectKeys_cons]
    by_cases ha : a = k
    · subst ha
      simp only [if_true, getProp_cons]
      by_cases h1 : k1 = a
      · simp [h1]
      · simp [h1, ih]
    · simp only [if_neg ha, getProp_cons, ih]
      by_cases h1 : k1 = a
      · have : ¬ k1 = k := fun h => ha (h1 ▸ h)
        simp [h1, this, ha]
      · have hk : ¬ k = a := fun h => ha h.symm
        simp [h1, hk]

theorem getProp_setProp (o : Obj) (k : String) (v : JsVal) (k1 : String) :
    getProp (setProp o k v) k1 = if k1 = k then v else getProp o k1 := by
  unfold setProp
  by_cases hk : k ∈ objectKeys o
  · rw [if_pos hk, getProp_map_set]
    by_cases h1 : k1 = k <;> simp [h1, hk]
  · rw [if_neg hk, getProp_append_single]
    by_cases h1 : k1 = k
    · subst h1; simp [hk]
    · by_cases h2 : k1 ∈ objectKeys o
      · simp [h1, h2]
      · simp [h1, h2, getProp_of_not_mem o k1 h2]

theorem mem_objectKeys_setProp (o : Obj) (k : String) (v : JsVal) (k1 : String) :
    k1 ∈ objectKeys (setProp o k v) ↔ k1 ∈ objectKeys o ∨ k1 = k := by
  unfold setProp
  by_cases hk : k ∈ objectKeys o
  · rw [if_pos hk]
    have : objectKeys (o.map (fun e => if e.1 = k then (k, v) else e)) = objectKeys o := by
      unfold objectKeys
      rw [List.map_map]
      apply List.map_congr_left
      intro e _
      by_cases h : e.1 = k <;> simp [h]
    rw [this]
    constructor
    · intro h; exact Or.inl h
    · rintro (h | h)
      · exact h
      · exact h ▸ hk
  · rw [if_neg hk]
    simp [objectKeys]

theorem getProp_filter (o : Obj) (keep : String → Bool) (k : String) :
    getProp (o.filter (fun e => keep e.1)) k =
      if keep k = true then getProp o k else JsVal.undefined := by
  induction o with
  | nil => simp [getProp_nil]
  | cons e o ih =>
    obtain ⟨a, b⟩ := e
    by_cases ha : keep a = true
    · rw [List.filter_cons_of_pos (by simpa using ha), getProp_cons, getProp_cons, ih]
      by_cases h1 : k = a
      · simp [h1, ha]
      · simp [h1]
    · rw [List.filter_cons_of_neg (by simpa using ha), getProp_cons, ih]
      by_cases h1 : k = a
      · subst h1; simp [ha]
      · simp [h1]

theorem mem_objectKeys_filter (o : Obj) (keep : String → Bool) (k : String) :
    k ∈ objectKeys (o.filter (fun e => keep e.1)) ↔ k ∈ objectKeys o ∧ keep k = true := by
  unfold objectKeys
  simp only [List.mem_map, List.mem_filter]
  constructor
  · rintro ⟨e, ⟨he, hk⟩, rfl⟩
    exact ⟨⟨e, he, rfl⟩, hk⟩
  · rintro ⟨⟨e, he, rfl⟩, hk⟩
    exact ⟨e, ⟨he, hk⟩, rfl⟩

theorem getProp_deleteProp (o : Obj) (k k1 : String) :
    getProp (deleteProp o k) k1 = if k1 = k then JsVal.undefined else getProp o k1 := by
  have h := getProp_filter o (fun a => decide (a ≠ k)) k1
  unfold deleteProp
  rw [h]
  by_cases h1 : k1 = k <;> simp [h1]

theorem mem_objectKeys_deleteProp (o : Obj) (k k1 : String) :
    k1 ∈ objectKeys (deleteProp o k) ↔ k1 ∈ objectKeys o ∧ k1 ≠ k := by
  have h := mem_objectKeys_filter o (fun a => decide (a ≠ k)) k1
  unfold deleteProp
  rw [h]
  simp

/-! ## The validation loop -/

theorem readProp_congr (a b : JsObject) (k : String)
    (h1 : getProp b.own k = getProp a.own k)
    (h2 : k ∈ objectKeys b.own ↔ k ∈ objectKeys a.own) (h3 : b.proto = a.proto) :
    readProp b k = readProp a k := by
  unfold readProp
  rw [h1, h3]
  by_cases h : k ∈ objectKeys a.own
  · rw [if_pos h, if_pos (h2.2 h)]
  · rw [if_neg h, if_neg (fun hb => h (h2.1 hb))]

theorem getProp_own_of_read (value : JsObject) (k : String)
    (h : readProp value k = JsVal.undefined) : getProp value.own k = JsVal.undefined := by
  unfold readProp at h
  by_cases hk : k ∈ objectKeys value.own
  · rw [if_pos hk] at h
    exact h
  · exact getProp_of_not_mem _ _ hk

theorem validateChild_ok (value out : JsObject)
    (c : String × (JsVal → Except JoiError JsVal))
    (h : validateChild value c = Except.ok out) :
    (∃ r, c.2 (readProp value c.1) = Except.ok r ∧ getProp out.own c.1 = r) ∧
      out.proto = value.proto ∧
      ∀ k, k ≠ c.1 →
        getProp out.own k = getProp value.own k ∧
          (k ∈ objectKeys out.own ↔ k ∈ objectKeys value.own) := by
  unfold validateChild at h
  cases hr : c.2 (readProp value c.1) with
  | error e => rw [hr] at h; cases h
  | ok r =>
    rw [hr] at h
    simp only at h
    by_cases hd : isDefined r = true
    · rw [if_pos hd] at h
      cases h
      refine ⟨⟨r, rfl, by rw [getProp_setProp]; simp⟩, rfl, ?_⟩
      intro k hk
      refine ⟨by rw [getProp_setProp, if_neg hk], ?_⟩
      rw [mem_objectKeys_setProp]
      simp [hk]
    · rw [if_neg hd] at h
      have hru : r = JsVal.undefined := by
        cases r <;> simp [isDefined] at hd ⊢
      by_cases hi : isDefined (readProp value c.1) = true
      · rw [if_pos hi] at h
        cases h
        refine ⟨⟨r, rfl, by rw [getProp_deleteProp]; simp [hru]⟩, rfl, ?_⟩
        intro k hk
        refine ⟨by rw [getProp_deleteProp, if_neg hk], ?_⟩
        rw [mem_objectKeys_deleteProp]
        simp [hk]
      · rw [if_neg hi] at h
        cases h
        have hiu : readProp value c.1 = JsVal.undefined := by
          cases hv : readProp value c.1 <;> simp [hv, isDefined] at hi ⊢
        refine ⟨⟨r, rfl, by rw [getProp_own_of_read value c.1 hiu, hru]⟩, rfl, ?_⟩
        intro k _
        exact ⟨rfl, Iff.rfl⟩

theorem validateChild_read (value out : JsObject)
    (c : String × (JsVal → Except JoiError JsVal))
    (h : validateChild value c = Except.ok out) (k : String) (hk : k ≠ c.1) :
    readProp out k = readProp value k := by
  obtain ⟨-, hp, hframe⟩ := validateChild_ok value out c h
  exact readProp_congr value out k (hframe k hk).1 (hframe k hk).2 hp

theorem validateChild_error (value : JsObject) (c : String × (JsVal → Except JoiError JsVal))
    (e : JoiError) (h : validateChild value c = Except.error e) :
    c.2 (readProp value c.1) = Except.error e := by
  unfold validateChild at h
  cases hr : c.2 (readProp value c.1) with
  | error e1 => rw [hr] at h; simpa using h
  | ok r =>
    rw [hr] at h
    simp only at h
    split_ifs at h

theorem validateChild_total (value : JsObject) (c : String × (JsVal → Except JoiError JsVal))
    (r : JsVal) (h : c.2 (readProp value c.1) = Except.ok r) :
    ∃ out, validateChild value c = Except.ok out := by
  unfold validateChild
  rw [h]
  simp only
  split_ifs
  · exact ⟨_, rfl⟩
  · exact ⟨_, rfl⟩
  · exact ⟨_, rfl⟩

theorem validateChildren_ok (cs : List (String × (JsVal → Except JoiError JsVal))) :
    ∀ (value out : JsObject), (cs.map Prod.fst).Nodup →
      validateChildren cs value = Except.ok out →
      (∀ c ∈ cs, ∃ r, c.2 (readProp value c.1) = Except.ok r ∧ getProp out.own c.1 = r) ∧
        out.proto = value.proto ∧
        ∀ k, k ∉ cs.map Prod.fst →
          getProp out.own k = getProp value.own k ∧
            (k ∈ objectKeys out.own ↔ k ∈ objectKeys value.own) := by
  induction cs with
  | nil =>
    intro value out _ h
    simp only [validateChildren] at h
    cases h
    exact ⟨by simp, rfl, fun k _ => ⟨rfl, Iff.rfl⟩⟩
  | cons c cs ih =>
    intro value out hnd h
    simp only [List.map_cons, List.nodup_cons] at hnd
    simp only [validateChildren] at h
    cases h1 : validateChild value c with
    | error e => rw [h1] at h; cases h
    | ok value1 =>
      rw [h1] at h
      simp only at h
      obtain ⟨⟨r, hr, hget⟩, hproto, hframe⟩ := validateChild_ok value value1 c h1
      obtain ⟨hall, hproto1, hrest⟩ := ih value1 out hnd.2 h
      refine ⟨?_, hproto1.trans hproto, ?_⟩
      · intro d hd
        rcases List.mem_cons.1 hd with rfl | hd
        · refine ⟨r, hr, ?_⟩
          rw [(hrest d.1 hnd.1).1, hget]
        · obtain ⟨r1, hr1, hg1⟩ := hall d hd
          have hne : d.1 ≠ c.1 := by
            intro heq
            apply hnd.1
            rw [← heq]
            exact List.mem_map_of_mem Prod.fst hd
          rw [validateChild_read value value1 c h1 d.1 hne] at hr1
          exact ⟨r1, hr1, hg1⟩
      · intro k hk
        simp only [List.map_cons, List.mem_cons, not_or] at hk
        obtain ⟨h2, h3⟩ := hrest k hk.2
        obtain ⟨h4, h5⟩ := hframe k hk.1
        exact ⟨h2.trans h4, h3.trans h5⟩

theorem validateChildren_error (cs : List (String × (JsVal → Except JoiError JsVal))) :
    ∀ (value : JsObject) (e : JoiError), (cs.map Prod.fst).Nodup →
      validateChildren cs value = Except.error e →
      ∃ c ∈ cs, c.2 (readProp value c.1) = Except.error e := by
  induction cs with
  | nil => intro value e _ h; simp [validateChildren] at h
  | cons c cs ih =>
    intro value e hnd h
    simp only [List.map_cons, List.nodup_cons] at hnd
    simp only [validateChildren] at h
    cases h1 : validateChild value c with
    | error e1 =>
      rw [h1] at h
      simp only [Except.error.injEq] at h
      subst h
      exact ⟨c, List.mem_cons_self _ _, validateChild_error value c e1 h1⟩
    | ok value1 =>
      rw [h1] at h
      simp only at h
      obtain ⟨d, hd, hde⟩ := ih value1 e hnd.2 h
      have hne : d.1 ≠ c.1 := by
        intro heq
        apply hnd.1
        rw [← heq]
        exact List.mem_map_of_mem Prod.fst hd
      rw [validateChild_read value value1 c h1 d.1 hne] at hde
      exact ⟨d, List.mem_cons_of_mem _ hd, hde⟩

theorem validateChildren_total (cs : List (String × (JsVal → Except JoiError JsVal))) :
    ∀ (value : JsObject), (cs.map Prod.fst).Nodup →
      (∀ c ∈ cs, ∃ r, c.2 (readProp value c.1) = Except.ok r) →
      ∃ out, validateChildren cs value = Except.ok out := by
  induction cs with
  | nil => intro value _ _; exact ⟨value, rfl⟩
  | cons c cs ih =>
    intro value hnd hall
    simp only [List.map_cons, List.nodup_cons] at hnd
    obtain ⟨r, hr⟩ := hall c (List.mem_cons_self _ _)
    obtain ⟨value1, h1⟩ := validateChild_total value c r hr
    simp only [validateChildren, h1]
    apply ih value1 hnd.2
    intro d hd
    have hne : d.1 ≠ c.1 := by
      intro heq
      apply hnd.1
      rw [← heq]
      exact List.mem_map_of_mem Prod.fst hd
    rw [validateChild_read value value1 c h1 d.1 hne]
    exact hall d (List.mem_cons_of_mem _ hd)

/-! ## The rules of the five fields -/

theorem schemaChildren_nodup (toNumber : String → Option ℚ) (req : Bool) :
    ((schemaChildren toNumber req).map Prod.fst).Nodup := by
  simp [schemaChildren]

theorem schemaChildren_keys (toNumber : String → Option ℚ) (req : Bool) :
    (schemaChildren toNumber req).map Prod.fst = schemaKeys := by
  simp [schemaChildren, schemaKeys]

theorem jsLength_empty : jsLength "" = 0 := rfl

theorem title_ok (req : Bool) (v r : JsVal)
    (h : joiChild req none (joiString 2 false) "title" v = Except.ok r) :
    (v = JsVal.undefined ∧ req = false ∧ r = JsVal.undefined) ∨
      ∃ t, v = JsVal.str t ∧ r = JsVal.str t ∧ 2 ≤ jsLength t := by
  cases v with
  | undefined =>
    cases req <;> simp [joiChild] at h
    exact Or.inl ⟨rfl, rfl, h.symm⟩
  | str t =>
    right
    simp only [joiChild, joiString] at h
    by_cases h1 : t = ""
    · simp [h1] at h
    · rw [if_neg h1] at h
      by_cases h2 : jsLength t < 2
      · simp [h2] at h
      · rw [if_neg h2] at h
        simp only [Except.ok.injEq] at h
        exact ⟨t, rfl, h.symm, not_lt.1 h2⟩
  | null => simp [joiChild, joiString] at h
  | bool b => simp [joiChild, joiString] at h
  | num q => simp [joiChild, joiString] at h
  | arr xs => simp [joiChild, joiString] at h
  | obj ps => simp [joiChild, joiString] at h

theorem title_accepts (req : Bool) (t : String) (h : 2 ≤ jsLength t) :
    joiChild req none (joiString 2 false) "title" (JsVal.str t) = Except.ok (JsVal.str t) := by
  have hne : t ≠ "" := by
    intro h0
    rw [h0, jsLength_empty] at h
    omega
  simp only [joiChild, joiString]
  rw [if_neg hne, if_neg (not_lt.2 h)]

theorem text_ok (key : String) (v r : JsVal)
    (h : joiChild false none (joiString 0 true) key v = Except.ok r) :
    (v = JsVal.undefined ∧ r = JsVal.undefined) ∨ ∃ t, v = JsVal.str t ∧ r = JsVal.str t := by
  cases v with
  | undefined =>
    simp [joiChild] at h
    exact Or.inl ⟨rfl, h.symm⟩
  | str t =>
    right
    simp only [joiChild, joiString] at h
    split_ifs at h with h1
    · simp only [Except.ok.injEq] at h
      exact ⟨t, rfl, h.symm⟩
    · simp only [Except.ok.injEq] at h
      exact ⟨t, rfl, h.symm⟩
  | null => simp [joiChild, joiString] at h
  | bool b => simp [joiChild, joiString] at h
  | num q => simp [joiChild, joiString] at h
  | arr xs => simp [joiChild, joiString] at h
  | obj ps => simp [joiChild, joiString] at h

theorem category_ok (v r : JsVal)
    (h : joiChild false (some (JsVal.str "other")) (joiValid categories) "category" v
      = Except.ok r) :
    (v = JsVal.undefined ∧ r = JsVal.str "other") ∨
      ∃ c, v = JsVal.str c ∧ r = JsVal.str c ∧ c ∈ categories := by
  cases v with
  | undefined =>
    simp [joiChild] at h
    exact Or.inl ⟨rfl, h.symm⟩
  | str c =>
    right
    simp only [joiChild, joiValid] at h
    split_ifs at h with h1
    simp only [Except.ok.injEq] at h
    exact ⟨c, rfl, h.symm, h1⟩
  | null => simp [joiChild, joiValid] at h
  | bool b => simp [joiChild, joiValid] at h
  | num q => simp [joiChild, joiValid] at h
  | arr xs => simp [joiChild, joiValid] at h
  | obj ps => simp [joiChild, joiValid] at h

theorem joiRange_ok (key : String) (q : ℚ) (r : JsVal)
    (h : joiRange 0 100 key q = Except.ok r) : r = JsVal.num q ∧ 0 ≤ q ∧ q ≤ 100 := by
  unfold joiRange at h
  split_ifs at h with h1 h2
  simp only [Except.ok.injEq] at h
  exact ⟨h.symm, not_lt.1 h1, not_lt.1 h2⟩

theorem joiSafe_ok (key : String) (q : ℚ) (r : JsVal)
    (h : joiSafe 0 100 key q = Except.ok r) : r = JsVal.num q ∧ 0 ≤ q ∧ q ≤ 100 := by
  unfold joiSafe at h
  split_ifs at h with h1
  exact joiRange_ok key q r h

theorem discount_ok (toNumber : String → Option ℚ) (v r : JsVal)
    (h : joiChild false (some (JsVal.num 0)) (joiNumber toNumber 0 100) "discountPercent" v
      = Except.ok r) :
    (v = JsVal.undefined ∧ r = JsVal.num 0) ∨
      (∃ q, v = JsVal.num q ∧ r = JsVal.num q ∧ 0 ≤ q ∧ q ≤ 100) ∨
      ∃ t q, v = JsVal.str t ∧ toNumber t = some q ∧ r = JsVal.num q ∧ 0 ≤ q ∧ q ≤ 100 := by
  cases v with
  | undefined =>
    simp [joiChild] at h
    exact Or.inl ⟨rfl, h.symm⟩
  | num q =>
    simp only [joiChild, joiNumber] at h
    exact Or.inr (Or.inl ⟨q, rfl, joiSafe_ok _ q r h⟩)
  | str t =>
    simp only [joiChild, joiNumber] at h
    cases ht : toNumber t with
    | none => rw [ht] at h; simp at h
    | some q =>
      rw [ht] at h
      exact Or.inr (Or.inr ⟨t, q, rfl, ht, joiSafe_ok _ q r h⟩)
  | null => simp [joiChild, joiNumber] at h
  | bool b => simp [joiChild, joiNumber] at h
  | arr xs => simp [joiChild, joiNumber] at h
  | obj ps => simp [joiChild, joiNumber] at h

/-- What a successful pass over the children of the schema says about each
field read from the input and about the own entries of the output. -/
theorem children_ok (toNumber : String → Option ℚ) (req : Bool) (value out : JsObject)
    (h : validateChildren (schemaChildren toNumber req) value = Except.ok out) :
    (∃ r, joiChild req none (joiString 2 false) "title" (readProp value "title") = Except.ok r ∧
        getProp out.own "title" = r) ∧
    (∃ r, joiChild false none (joiString 0 true) "description" (readProp value "description")
        = Except.ok r ∧ getProp out.own "description" = r) ∧
    (∃ r, joiChild false (some (JsVal.str "other")) (joiValid categories) "category"
        (readProp value "category") = Except.ok r ∧ getProp out.own "category" = r) ∧
    (∃ r, joiChild false (some (JsVal.num 0)) (joiNumber toNumber 0 100) "discountPercent"
        (readProp value "discountPercent") = Except.ok r ∧
        getProp out.own "discountPercent" = r) ∧
    (∃ r, joiChild false none (joiString 0 true) "merchant" (readProp value "merchant")
        = Except.ok r ∧ getProp out.own "merchant" = r) ∧
    ∀ k, k ∉ schemaKeys →
      getProp out.own k = getProp value.own k ∧
        (k ∈ objectKeys out.own ↔ k ∈ objectKeys value.own) := by
  obtain ⟨hall, -, hrest⟩ :=
    validateChildren_ok _ value out (schemaChildren_nodup toNumber req) h
  rw [schemaChildren_keys] at hrest
  refine ⟨?_, ?_, ?_, ?_, ?_, hrest⟩
  · exact hall ("title", joiChild req none (joiString 2 false) "title")
      (by simp [schemaChildren])
  · exact hall ("description", joiChild false none (joiString 0 true) "description")
      (by simp [schemaChildren])
  · exact hall
      ("category", joiChild false (some (JsVal.str "other")) (joiValid categories) "category")
      (by simp [schemaChildren])
  · exact hall
      ("discountPercent",
        joiChild false (some (JsVal.num 0)) (joiNumber toNumber 0 100) "discountPercent")
      (by simp [schemaChildren])
  · exact hall ("merchant", joiChild false none (joiString 0 true) "merchant")
      (by simp [schemaChildren])

theorem perkSchema_loop (toNumber : String → Option ℚ) :
    schemaLoop (perkSchema toNumber) = schemaChildren toNumber false := rfl

theorem createPerkSchema_loop (toNumber : String → Option ℚ) :
    schemaLoop (createPerkSchema toNumber) = schemaChildren toNumber true := rfl

theorem validate_ok (toNumber : String → Option ℚ) (req : Bool) (schema : List Child)
    (opts : ValidateOptions) (body : Obj) (value : JsObject)
    (hs : schemaLoop schema = schemaChildren toNumber req)
    (h : validate schema opts body = Except.ok value) :
    ∃ out, validateChildren (schemaChildren toNumber req) (cloneObject body) = Except.ok out ∧
      handleUnknown opts out = Except.ok value := by
  unfold validate at h
  rw [hs] at h
  cases h1 : validateChildren (schemaChildren toNumber req) (cloneObject body) with
  | error e => rw [h1] at h; cases h
  | ok out => rw [h1] at h; exact ⟨out, rfl, h⟩

theorem handleUnknown_default_ok (out value : JsObject)
    (h : handleUnknown defaultOptions out = Except.ok value) :
    value = out ∧ ∀ k ∈ objectKeys out.own, k ∈ schemaKeys := by
  simp only [handleUnknown, defaultOptions] at h
  cases hu : unknownKeys out.own with
  | nil =>
    rw [hu] at h
    simp at h
    refine ⟨h.symm, ?_⟩
    intro k hk
    by_contra hn
    have : k ∈ unknownKeys out.own := by
      unfold unknownKeys
      simp [hk, hn]
    rw [hu] at this
    cases this
  | cons k ks => rw [hu] at h; simp at h

theorem handleUnknown_update (out : JsObject) :
    handleUnknown updateOptions out =
      Except.ok ⟨out.own.filter (fun e => decide (e.1 ∈ schemaKeys)), out.proto⟩ := by
  simp [handleUnknown, updateOptions]

theorem handleUnknown_default_of_known (out : JsObject)
    (h : ∀ k ∈ objectKeys out.own, k ∈ schemaKeys) :
    handleUnknown defaultOptions out = Except.ok out := by
  have hu : unknownKeys out.own = [] := by
    unfold unknownKeys
    rw [List.filter_eq_nil_iff]
    intro k hk
    simpa using h k hk
  simp [handleUnknown, defaultOptions, hu]

/-! ## The clone of the input -/

theorem mem_objectKeys_clone (body : Obj) (k : String) :
    k ∈ objectKeys (cloneObject body).own ↔ k ∈ objectKeys body ∧ k ≠ "__proto__" := by
  have h := mem_objectKeys_filter body (fun a => decide (a ≠ "__proto__")) k
  unfold cloneObject
  simp only
  rw [h]
  simp

theorem getProp_clone (body : Obj) (k : String) (hk : k ≠ "__proto__") :
    getProp (cloneObject body).own k = getProp body k := by
  have h := getProp_filter body (fun a => decide (a ≠ "__proto__")) k
  unfold cloneObject
  simp only
  rw [h]
  simp [hk]

/-- An own entry of the body is what the validator reads. -/
theorem readProp_clone_of_mem (body : Obj) (k : String) (hk : k ≠ "__proto__")
    (hm : k ∈ objectKeys body) : readProp (cloneObject body) k = getProp body k := by
  unfold readProp
  rw [if_pos ((mem_objectKeys_clone body k).2 ⟨hm, hk⟩), getProp_clone body k hk]

/-- Without an own entry the validator reads the entry of the object given
under `__proto__`. -/
theorem readProp_clone_of_proto (body : Obj) (k : String) (props : Obj)
    (hm : k ∉ objectKeys body) (hp : getProp body "__proto__" = JsVal.obj props) :
    readProp (cloneObject body) k = getProp props k := by
  unfold readProp
  rw [if_neg (fun h => hm ((mem_objectKeys_clone body k).1 h).1)]
  simp [cloneObject, hp, protoOf]

/-- Without an own entry and without an object under `__proto__` the
validator reads `undefined`. -/
theorem readProp_clone_of_absent (body : Obj) (k : String)
    (hm : k ∉ objectKeys body) (hp : ∀ props, getProp body "__proto__" ≠ JsVal.obj props) :
    readProp (cloneObject body) k = JsVal.undefined := by
  unfold readProp
  rw [if_neg (fun h => hm ((mem_objectKeys_clone body k).1 h).1)]
  cases hv : getProp body "__proto__" with
  | obj props => exact absurd hv (hp props)
  | undefined => simp [cloneObject, hv, protoOf]
  | null => simp [cloneObject, hv, protoOf]
  | bool b => simp [cloneObject, hv, protoOf]
  | num q => simp [cloneObject, hv, protoOf]
  | str t => simp [cloneObject, hv, protoOf]
  | arr xs => simp [cloneObject, hv, protoOf]

theorem schemaKey_ne_proto (k : String) (h : k ∈ schemaKeys) : k ≠ "__proto__" := by
  intro hk
  subst hk
  revert h
  decide

theorem own_or_read (body : Obj) (k : String) (hk : k ≠ "__proto__") :
    getProp body k = JsVal.undefined ∨ readProp (cloneObject body) k = getProp body k := by
  by_cases hm : k ∈ objectKeys body
  · exact Or.inr (readProp_clone_of_mem body k hk hm)
  · exact Or.inl (getProp_of_not_mem body k hm)

theorem read_of_own (body : Obj) (k : String) (v : JsVal) (hk : k ≠ "__proto__")
    (hv : getProp body k = v) (hd : v ≠ JsVal.undefined) :
    readProp (cloneObject body) k = v := by
  rcases own_or_read body k hk with h | h
  · rw [hv] at h
    exact absurd h hd
  · rw [h, hv]

/-! ## Creation: the steps of the handler -/

theorem validate_error_of_title (toNumber : String → Option ℚ)
    (opts : ValidateOptions) (body : Obj) (e : JoiError)
    (h : joiChild true none (joiString 2 false) "title" (readProp (cloneObject body) "title")
      = Except.error e) :
    validate (createPerkSchema toNumber) opts body = Except.error e := by
  unfold validate
  rw [createPerkSchema_loop]
  simp [schemaChildren, validateChildren, validateChild, h]

theorem createPerk_of_error {σ : Type} (toNumber : String → Option ℚ) (P : Persistence σ)
    (s : σ) (body : Obj) (e : JoiError)
    (h : validate (createPerkSchema toNumber) defaultOptions body = Except.error e) :
    createPerk toNumber P s body = (Response.json 400 (ResBody.invalid e), s) := by
  simp [createPerk, h]

theorem catchWrite_status (err : DbError) : (catchWrite err).status ≠ some 400 := by
  unfold catchWrite
  split_ifs <;> simp [Response.status]

theorem createPerk_of_ok {σ : Type} (toNumber : String → Option ℚ) (P : Persistence σ)
    (s : σ) (body : Obj) (value : JsObject)
    (h : validate (createPerkSchema toNumber) defaultOptions body = Except.ok value) :
    createPerk toNumber P s body =
      match P.create s value.own with
      | Except.ok (doc, s1) => (Response.json 201 (ResBody.perk (some doc)), s1)
      | Except.error err => (catchWrite err, s) := by
  simp [createPerk, h]

theorem createPerk_status_of_ok {σ : Type} (toNumber : String → Option ℚ) (P : Persistence σ)
    (s : σ) (body : Obj) (value : JsObject)
    (h : validate (createPerkSchema toNumber) defaultOptions body = Except.ok value) :
    (createPerk toNumber P s body).1.status ≠ some 400 := by
  rw [createPerk_of_ok toNumber P s body value h]
  cases hc : P.create s value.own with
  | error err => simpa using catchWrite_status err
  | ok r =>
    obtain ⟨doc, s1⟩ := r
    simp [Response.status]

theorem othersValid_spec (toNumber : String → Option ℚ) (body : Obj)
    (h : othersValid toNumber body = true) :
    (∀ c ∈ schemaChildren toNumber false, c.1 ≠ "title" →
        ∃ r, c.2 (readProp (cloneObject body) c.1) = Except.ok r) ∧
      unknownKeys (cloneObject body).own = [] := by
  unfold othersValid at h
  rw [perkSchema_loop, Bool.and_eq_true, List.all_eq_true] at h
  refine ⟨?_, by simpa using h.2⟩
  intro c hc hne
  have h1 := h.1 c hc
  simp only [Bool.or_eq_true, decide_eq_true_eq] at h1
  rcases h1 with h1 | h1
  · exact absurd h1 hne
  · cases hr : c.2 (readProp (cloneObject body) c.1) with
    | ok r => exact ⟨r, rfl⟩
    | error e => rw [hr] at h1; simp [accepts] at h1

/-- With the other fields valid, the strict schema passes as soon as the
title rule does. -/
theorem validate_create_of_title (toNumber : String → Option ℚ) (body : Obj) (t : String)
    (hothers : othersValid toNumber body = true)
    (ht : readProp (cloneObject body) "title" = JsVal.str t) (hlen : 2 ≤ jsLength t) :
    ∃ value, validate (createPerkSchema toNumber) defaultOptions body = Except.ok value := by
  obtain ⟨hfields, hunknown⟩ := othersValid_spec toNumber body hothers
  have htot : ∃ out, validateChildren (schemaChildren toNumber true) (cloneObject body)
      = Except.ok out := by
    apply validateChildren_total _ _ (schemaChildren_nodup toNumber true)
    intro c hc
    simp only [schemaChildren, List.mem_cons, List.mem_singleton, List.not_mem_nil,
      or_false] at hc
    rcases hc with rfl | rfl | rfl | rfl | rfl
    · exact ⟨JsVal.str t, by simp only; rw [ht]; exact title_accepts true t hlen⟩
    · exact hfields _ (by simp [schemaChildren]) (by simp)
    · exact hfields _ (by simp [schemaChildren]) (by simp)
    · exact hfields _ (by simp [schemaChildren]) (by simp)
    · exact hfields _ (by simp [schemaChildren]) (by simp)
  obtain ⟨out, hout⟩ := htot
  obtain ⟨-, -, -, -, -, hrest⟩ := children_ok _ _ _ _ hout
  have hknown : ∀ k ∈ objectKeys out.own, k ∈ schemaKeys := by
    intro k hk
    by_contra hn
    have hkb : k ∈ objectKeys (cloneObject body).own := ((hrest k hn).2).1 hk
    have : k ∈ unknownKeys (cloneObject body).own := by
      unfold unknownKeys
      simp [hkb, hn]
    rw [hunknown] at this
    cases this
  refine ⟨out, ?_⟩
  unfold validate
  rw [createPerkSchema_loop, hout]
  exact handleUnknown_default_of_known out hknown

theorem title_rejects (v : JsVal)
    (h : v = JsVal.undefined ∨ (∀ t, v ≠ JsVal.str t) ∨ ∃ t, v = JsVal.str t ∧ jsLength t < 2) :
    ∃ e, joiChild true none (joiString 2 false) "title" v = Except.error e := by
  cases v with
  | undefined => exact ⟨_, rfl⟩
  | null => exact ⟨_, rfl⟩
  | bool b => exact ⟨_, rfl⟩
  | num q => exact ⟨_, rfl⟩
  | arr xs => exact ⟨_, rfl⟩
  | obj ps => exact ⟨_, rfl⟩
  | str t =>
    have hlen : jsLength t < 2 := by
      rcases h with h | h | ⟨t1, h, hl⟩
      · cases h
      · exact absurd rfl (h t)
      · cases h
        exact hl
    by_cases h0 : t = ""
    · exact ⟨⟨"title", "string.empty"⟩, by simp [joiChild, joiString, h0]⟩
    · exact ⟨⟨"title", "string.min"⟩, by simp [joiChild, joiString, h0, hlen]⟩

theorem title_passes (v : JsVal)
    (h : ¬ (v = JsVal.undefined ∨ (∀ t, v ≠ JsVal.str t) ∨
      ∃ t, v = JsVal.str t ∧ jsLength t < 2)) :
    ∃ t, v = JsVal.str t ∧ 2 ≤ jsLength t := by
  cases v with
  | str t =>
    refine ⟨t, rfl, ?_⟩
    by_contra hl
    exact h (Or.inr (Or.inr ⟨t, rfl, not_le.1 hl⟩))
  | undefined => exact absurd (Or.inl rfl) h
  | null => exact absurd (Or.inr (Or.inl (fun t ht => by cases ht))) h
  | bool b => exact absurd (Or.inr (Or.inl (fun t ht => by cases ht))) h
  | num q => exact absurd (Or.inr (Or.inl (fun t ht => by cases ht))) h
  | arr xs => exact absurd (Or.inr (Or.inl (fun t ht => by cases ht))) h
  | obj ps => exact absurd (Or.inr (Or.inl (fun t ht => by cases ht))) h

/-! ## Creation -/

/-- C1 (amended): with the other fields valid, `createPerk` answers 400
exactly when the title the validator reads is absent, is not text, or is text
shorter than 2 characters, and then the store is left as it was. The title
read is the own `title` of the body, or, when the body has none, the `title`
of an object given under `__proto__`. The title "ab" is accepted and answered
201 with the inserted record, the title "a" is answered 400. -/
theorem createPerk_title_rule {σ : Type} (toNumber : String → Option ℚ) (P : Persistence σ)
    (s : σ) (body : Obj) (hothers : othersValid toNumber body = true) :
    ((createPerk toNumber P s body).1.status = some 400 ↔
      (readProp (cloneObject body) "title" = JsVal.undefined ∨
        (∀ t, readProp (cloneObject body) "title" ≠ JsVal.str t) ∨
        ∃ t, readProp (cloneObject body) "title" = JsVal.str t ∧ jsLength t < 2)) ∧
    ((createPerk toNumber P s body).1.status = some 400 →
      ∃ e, createPerk toNumber P s body = (Response.json 400 (ResBody.invalid e), s)) ∧
    ("title" ∈ objectKeys body →
      readProp (cloneObject body) "title" = getProp body "title") ∧
    ("title" ∉ objectKeys body → ∀ props, getProp body "__proto__" = JsVal.obj props →
      readProp (cloneObject body) "title" = getProp props "title") ∧
    ("title" ∉ objectKeys body → (∀ props, getProp body "__proto__" ≠ JsVal.obj props) →
      readProp (cloneObject body) "title" = JsVal.undefined) ∧
    (∀ doc s1,
      P.create s [("title", JsVal.str "ab"), ("category", JsVal.str "other"),
        ("discountPercent", JsVal.num 0)] = Except.ok (doc, s1) →
      createPerk toNumber P s [("title", JsVal.str "ab")]
        = (Response.json 201 (ResBody.perk (some doc)), s1)) ∧
    createPerk toNumber P s [("title", JsVal.str "a")]
      = (Response.json 400 (ResBody.invalid ⟨"title", "string.min"⟩), s) := by
  refine ⟨⟨?_, ?_⟩, ?_, readProp_clone_of_mem body "title" (by decide),
    fun hm props hp => readProp_clone_of_proto body "title" props hm hp,
    readProp_clone_of_absent body "title", ?_, ?_⟩
  · intro hst
    by_contra hn
    obtain ⟨t, ht, hlen⟩ := title_passes _ hn
    obtain ⟨value, hv⟩ := validate_create_of_title toNumber body t hothers ht hlen
    exact createPerk_status_of_ok toNumber P s body value hv hst
  · intro hb
    obtain ⟨e, he⟩ := title_rejects _ hb
    rw [createPerk_of_error toNumber P s body e
      (validate_error_of_title toNumber defaultOptions body e he)]
    rfl
  · intro hst
    cases hv : validate (createPerkSchema toNumber) defaultOptions body with
    | error e => exact ⟨e, createPerk_of_error toNumber P s body e hv⟩
    | ok value => exact absurd hst (createPerk_status_of_ok toNumber P s body value hv)
  · intro doc s1 hc
    have hv : validate (createPerkSchema toNumber) defaultOptions [("title", JsVal.str "ab")]
        = Except.ok ⟨[("title", JsVal.str "ab"), ("category", JsVal.str "other"),
          ("discountPercent", JsVal.num 0)], none⟩ := rfl
    rw [createPerk_of_ok toNumber P s _ _ hv, hc]
  · exact createPerk_of_error toNumber P s _ _ rfl

/-- C6 (amended): every create input is either answered 400 with nothing
handed to the insert, or the own entries of the normalized value are handed
to the insert, and there `category` is "other" when the validator reads no
category, `discountPercent` is 0 when it reads no discount, and a category or
number supplied as an own entry of the input is handed on unchanged. What the
validator reads for a key is the own entry of the input, else the entry of an
object given under `__proto__`, else nothing. -/
theorem createPerk_defaults {σ : Type} (toNumber : String → Option ℚ) (P : Persistence σ)
    (s : σ) (body : Obj) :
    (∃ e, createPerk toNumber P s body = (Response.json 400 (ResBody.invalid e), s)) ∨
    ∃ value, validate (createPerkSchema toNumber) defaultOptions body = Except.ok value ∧
      (createPerk toNumber P s body =
        match P.create s value.own with
        | Except.ok (doc, s1) => (Response.json 201 (ResBody.perk (some doc)), s1)
        | Except.error err => (catchWrite err, s)) ∧
      (readProp (cloneObject body) "category" = JsVal.undefined →
        getProp value.own "category" = JsVal.str "other") ∧
      (readProp (cloneObject body) "discountPercent" = JsVal.undefined →
        getProp value.own "discountPercent" = JsVal.num 0) ∧
      (∀ c, getProp body "category" = JsVal.str c →
        getProp value.own "category" = JsVal.str c) ∧
      (∀ q, getProp body "discountPercent" = JsVal.num q →
        getProp value.own "discountPercent" = JsVal.num q) ∧
      (∀ k ∈ schemaKeys, k ∈ objectKeys body →
        readProp (cloneObject body) k = getProp body k) ∧
      (∀ k ∈ schemaKeys, ∀ props, k ∉ objectKeys body →
        getProp body "__proto__" = JsVal.obj props →
        readProp (cloneObject body) k = getProp props k) ∧
      ∀ k ∈ schemaKeys, k ∉ objectKeys body →
        (∀ props, getProp body "__proto__" ≠ JsVal.obj props) →
        readProp (cloneObject body) k = JsVal.undefined := by
  cases h : validate (createPerkSchema toNumber) defaultOptions body with
  | error e => exact Or.inl ⟨e, createPerk_of_error toNumber P s body e h⟩
  | ok value =>
    right
    obtain ⟨out, hc, hu⟩ :=
      validate_ok toNumber true _ _ _ _ (createPerkSchema_loop toNumber) h
    obtain ⟨-, -, ⟨rc, hrc, hgc⟩, ⟨rd, hrd, hgd⟩, -, -⟩ := children_ok _ _ _ _ hc
    obtain ⟨hval, -⟩ := handleUnknown_default_ok _ _ hu
    subst hval
    refine ⟨value, rfl, createPerk_of_ok toNumber P s body value h, ?_, ?_, ?_, ?_,
      fun k hk hm => readProp_clone_of_mem body k (schemaKey_ne_proto k hk) hm,
      fun k _ props hm hp => readProp_clone_of_proto body k props hm hp,
      fun k _ => readProp_clone_of_absent body k⟩
    · intro hb
      rw [hb] at hrc
      rcases category_ok _ _ hrc with ⟨-, hr⟩ | ⟨c, hv, -, -⟩
      · rw [hgc, hr]
      · cases hv
    · intro hb
      rw [hb] at hrd
      rcases discount_ok _ _ _ hrd with ⟨-, hr⟩ | ⟨q, hv, -⟩ | ⟨t, q, hv, -⟩
      · rw [hgd, hr]
      · cases hv
      · cases hv
    · intro c hb
      rw [read_of_own body "category" _ (by decide) hb (by simp)] at hrc
      rcases category_ok _ _ hrc with ⟨hv, -⟩ | ⟨c1, hv, hr, -⟩
      · cases hv
      · cases hv
        rw [hgc, hr]
    · intro q hb
      rw [read_of_own body "discountPercent" _ (by decide) hb (by simp)] at hrd
      rcases discount_ok _ _ _ hrd with ⟨hv, -⟩ | ⟨q1, hv, hr, -⟩ | ⟨t, q1, hv, -⟩
      · cases hv
      · cases hv
        rw [hgd, hr]
      · cases hv

/-- C8 (amended): a create input with an own key outside the schema, other
than `__proto__`, is answered 400 and the store is left as it was, whatever
the other fields hold. -/
theorem createPerk_rejects_unknown {σ : Type} (toNumber : String → Option ℚ)
    (P : Persistence σ) (s : σ) (body : Obj) (k : String)
    (hk : k ∈ objectKeys body) (hu : k ∉ schemaKeys) (hp : k ≠ "__proto__") :
    ∃ e, createPerk toNumber P s body = (Response.json 400 (ResBody.invalid e), s) := by
  cases hv : validate (createPerkSchema toNumber) defaultOptions body with
  | error e => exact ⟨e, createPerk_of_error toNumber P s body e hv⟩
  | ok value =>
    exfalso
    obtain ⟨out, hc, hun⟩ :=
      validate_ok toNumber true _ _ _ _ (createPerkSchema_loop toNumber) hv
    obtain ⟨-, -, -, -, -, hrest⟩ := children_ok _ _ _ _ hc
    obtain ⟨-, hknown⟩ := handleUnknown_default_ok _ _ hun
    exact hu (hknown k (((hrest k hu).2).2 ((mem_objectKeys_clone body k).2 ⟨hk, hp⟩)))

/-! ## The update object -/

theorem updateFields_fold (l acc : Obj)
    (hnd : (objectKeys l).Nodup) (hdis : ∀ k ∈ objectKeys l, k ∉ objectKeys acc) :
    l.foldl
        (fun updates e => if isDefined e.2 then assignField updates e.1 e.2 else updates) acc
      = acc ++ l.filter (fun e => isDefined e.2 && decide (e.1 ≠ "__proto__")) := by
  induction l generalizing acc with
  | nil => simp
  | cons e l ih =>
    simp only [objectKeys_cons, List.nodup_cons] at hnd
    have hrest : ∀ k ∈ objectKeys l, k ∉ objectKeys acc := by
      intro k hk
      exact hdis k (by simp [objectKeys_cons, hk])
    rw [List.foldl_cons, List.filter_cons]
    by_cases hd : isDefined e.2 = true
    · rw [if_pos hd]
      by_cases hp : e.1 = "__proto__"
      · have hassign : assignField acc e.1 e.2 = acc := by
          unfold assignField
          rw [if_pos hp]
        rw [hassign, ih acc hnd.2 hrest]
        simp [hd, hp]
      · have hnot : e.1 ∉ objectKeys acc := hdis e.1 (by simp [objectKeys_cons])
        have hassign : assignField acc e.1 e.2 = acc ++ [e] := by
          unfold assignField setProp
          rw [if_neg hp, if_neg hnot]
        rw [hassign, ih (acc ++ [e]) hnd.2]
        · simp [hd, hp]
        · intro k hk
          have h1 : k ∉ objectKeys acc := hrest k hk
          have h2 : k ≠ e.1 := fun h => hnd.1 (h ▸ hk)
          simp only [objectKeys, List.map_append, List.mem_append, List.map_cons, List.map_nil,
            List.mem_singleton, not_or]
          exact ⟨h1, h2⟩
    · rw [if_neg hd, ih acc hnd.2 hrest]
      simp [hd]

theorem updateFields_eq_filter (body : Obj) (hwf : WellFormed body) :
    updateFields body
      = body.filter (fun e => isDefined e.2 && decide (e.1 ≠ "__proto__")) := by
  unfold updateFields
  rw [updateFields_fold body [] hwf (by simp [objectKeys])]
  simp

theorem getProp_filter_defined (o : Obj) (hwf : WellFormed o) (k : String) :
    getProp (o.filter (fun e => isDefined e.2)) k = getProp o k := by
  induction o with
  | nil => rfl
  | cons e o ih =>
    obtain ⟨a, b⟩ := e
    have hnd : a ∉ objectKeys o ∧ (objectKeys o).Nodup := by
      simpa [WellFormed, objectKeys_cons] using hwf
    by_cases hd : isDefined b = true
    · rw [List.filter_cons, if_pos hd, getProp_cons, getProp_cons, ih hnd.2]
    · rw [List.filter_cons, if_neg hd, getProp_cons, ih hnd.2]
      have hb : b = JsVal.undefined := by
        cases b <;> simp [isDefined] at hd ⊢
      by_cases hk : k = a
      · rw [if_pos hk, hk, hb]
        exact getProp_of_not_mem o a hnd.1
      · rw [if_neg hk]

/-- A key other than `__proto__` has in the update object the value it has in
the body. -/
theorem getProp_updateFields (body : Obj) (hwf : WellFormed body) (k : String)
    (hk : k ≠ "__proto__") : getProp (updateFields body) k = getProp body k := by
  have hsplit : body.filter (fun e => isDefined e.2 && decide (e.1 ≠ "__proto__"))
      = (body.filter (fun e => isDefined e.2)).filter
          (fun e => (fun a => decide (a ≠ "__proto__")) e.1) := by
    rw [List.filter_filter]
    apply List.filter_congr
    intro e _
    exact Bool.and_comm _ _
  rw [updateFields_eq_filter body hwf, hsplit,
    getProp_filter _ (fun a => decide (a ≠ "__proto__")) k, getProp_filter_defined body hwf]
  simp [hk]

/-! ## The in-memory store -/

theorem id_of_find (l : List Perk) (id : Nat) (p : Perk)
    (h : l.find? (fun x => decide (x.id = id)) = some p) : p.id = id ∧ p ∈ l := by
  have h1 := List.find?_some h
  exact ⟨by simpa using h1, List.mem_of_find?_eq_some h⟩

theorem mem_replaceFirst (id : Nat) (p1 : Perk) (l : List Perk) (x : Perk)
    (h : x ∈ replaceFirst id p1 l) : x = p1 ∨ x ∈ l := by
  induction l with
  | nil => cases h
  | cons y l ih =>
    unfold replaceFirst at h
    split_ifs at h with hy
    · rcases List.mem_cons.1 h with h | h
      · exact Or.inl h
      · exact Or.inr (List.mem_cons_of_mem _ h)
    · rcases List.mem_cons.1 h with h | h
      · exact Or.inr (h ▸ List.mem_cons_self _ _)
      · rcases ih h with h | h
        · exact Or.inl h
        · exact Or.inr (List.mem_cons_of_mem _ h)

theorem replaceFirst_self (id : Nat) (p : Perk) (l : List Perk)
    (h : l.find? (fun x => decide (x.id = id)) = some p) : replaceFirst id p l = l := by
  induction l with
  | nil => cases h
  | cons y l ih =>
    unfold replaceFirst
    by_cases hy : y.id = id
    · rw [if_pos hy]
      rw [List.find?_cons_of_pos _ (by simpa using hy)] at h
      cases h
      rfl
    · rw [if_neg hy]
      rw [List.find?_cons_of_neg _ (by simpa using hy)] at h
      rw [ih h]

theorem find_replaceFirst (id : Nat) (p p1 : Perk) (l : List Perk)
    (h : l.find? (fun x => decide (x.id = id)) = some p) (h1 : p1.id = id) :
    (replaceFirst id p1 l).find? (fun x => decide (x.id = id)) = some p1 := by
  induction l with
  | nil => cases h
  | cons y l ih =>
    unfold replaceFirst
    by_cases hy : y.id = id
    · rw [if_pos hy, List.find?_cons_of_pos _ (by simpa using h1)]
    · rw [if_neg hy, List.find?_cons_of_neg _ (by simpa using hy)]
      rw [List.find?_cons_of_neg _ (by simpa using hy)] at h
      exact ih h

theorem castOr_text (x : String) (v : JsVal)
    (hv : v = JsVal.undefined ∨ ∃ t, v = JsVal.str t) :
    ∃ y, castOr castText (some x) v = some y ∧ (v = JsVal.undefined → y = x) ∧
      ∀ t, v = JsVal.str t → y = t := by
  rcases hv with rfl | ⟨t, rfl⟩
  · refine ⟨x, rfl, fun _ => rfl, ?_⟩
    intro t h
    cases h
  · refine ⟨t, rfl, ?_, ?_⟩
    · intro h
      cases h
    · intro t1 h
      cases h
      rfl

theorem castOr_number (toNumber : String → Option ℚ) (x : ℚ) (v : JsVal)
    (hv : v = JsVal.undefined ∨ (∃ q, v = JsVal.num q) ∨
      ∃ t q, v = JsVal.str t ∧ toNumber t = some q) :
    ∃ y, castOr (castNumber toNumber) (some x) v = some y ∧ (v = JsVal.undefined → y = x) ∧
      (∀ q, v = JsVal.num q → y = q) ∧
      ∀ t q, v = JsVal.str t → toNumber t = some q → y = q := by
  rcases hv with rfl | ⟨q, rfl⟩ | ⟨t, q, rfl, ht⟩
  · refine ⟨x, rfl, fun _ => rfl, ?_, ?_⟩
    · intro q h
      cases h
    · intro t q h
      cases h
  · refine ⟨q, rfl, ?_, ?_, ?_⟩
    · intro h
      cases h
    · intro q1 h
      cases h
      rfl
    · intro t q1 h
      cases h
  · refine ⟨q, ?_, ?_, ?_, ?_⟩
    · simp [castOr, castNumber, ht]
    · intro h
      cases h
    · intro q1 h
      cases h
    · intro t1 q1 h h1
      cases h
      rw [ht] at h1
      cases h1
      rfl

theorem own_title (req : Bool) (body : Obj) (r : JsVal)
    (h : joiChild req none (joiString 2 false) "title" (readProp (cloneObject body) "title")
      = Except.ok r) :
    getProp body "title" = JsVal.undefined ∨
      ∃ t, getProp body "title" = JsVal.str t ∧ 2 ≤ jsLength t := by
  rcases own_or_read body "title" (by decide) with h0 | h0
  · exact Or.inl h0
  · rw [h0] at h
    rcases title_ok _ _ _ h with ⟨h1, -⟩ | ⟨t, h1, -, hl⟩
    · exact Or.inl h1
    · exact Or.inr ⟨t, h1, hl⟩

theorem own_text (body : Obj) (key : String) (r : JsVal) (hk : key ≠ "__proto__")
    (h : joiChild false none (joiString 0 true) key (readProp (cloneObject body) key)
      = Except.ok r) :
    getProp body key = JsVal.undefined ∨ ∃ t, getProp body key = JsVal.str t := by
  rcases own_or_read body key hk with h0 | h0
  · exact Or.inl h0
  · rw [h0] at h
    rcases text_ok _ _ _ h with ⟨h1, -⟩ | ⟨t, h1, -⟩
    · exact Or.inl h1
    · exact Or.inr ⟨t, h1⟩

theorem own_category (body : Obj) (r : JsVal)
    (h : joiChild false (some (JsVal.str "other")) (joiValid categories) "category"
      (readProp (cloneObject body) "category") = Except.ok r) :
    getProp body "category" = JsVal.undefined ∨
      ∃ t, getProp body "category" = JsVal.str t ∧ t ∈ categories := by
  rcases own_or_read body "category" (by decide) with h0 | h0
  · exact Or.inl h0
  · rw [h0] at h
    rcases category_ok _ _ h with ⟨h1, -⟩ | ⟨t, h1, -, hm⟩
    · exact Or.inl h1
    · exact Or.inr ⟨t, h1, hm⟩

theorem own_discount (toNumber : String → Option ℚ) (body : Obj) (r : JsVal)
    (h : joiChild false (some (JsVal.num 0)) (joiNumber toNumber 0 100) "discountPercent"
      (readProp (cloneObject body) "discountPercent") = Except.ok r) :
    getProp body "discountPercent" = JsVal.undefined ∨
      (∃ q, getProp body "discountPercent" = JsVal.num q ∧ 0 ≤ q ∧ q ≤ 100) ∨
      ∃ t q, getProp body "discountPercent" = JsVal.str t ∧ toNumber t = some q ∧
        0 ≤ q ∧ q ≤ 100 := by
  rcases own_or_read body "discountPercent" (by decide) with h0 | h0
  · exact Or.inl h0
  · rw [h0] at h
    rcases discount_ok _ _ _ h with ⟨h1, -⟩ | ⟨q, h1, -, hq⟩ | ⟨t, q, h1, ht, -, hq⟩
    · exact Or.inl h1
    · exact Or.inr (Or.inl ⟨q, h1, hq⟩)
    · exact Or.inr (Or.inr ⟨t, q, h1, ht, hq⟩)

/-- The record that `$set: updates` makes of a stored record, for a body that
passed the validation of `updatePerk`. -/
theorem setFields_of_valid (toNumber : String → Option ℚ) (p : Perk) (body : Obj)
    (value : JsObject)
    (hv : validate (perkSchema toNumber) updateOptions body = Except.ok value)
    (hwf : WellFormed body) :
    ∃ p1, setFields toNumber p (updateFields body) = some p1 ∧
      p1.id = p.id ∧ p1.createdAt = p.createdAt ∧
      (getProp body "title" = JsVal.undefined → p1.title = p.title) ∧
      (∀ t, getProp body "title" = JsVal.str t → p1.title = t) ∧
      (getProp body "description" = JsVal.undefined → p1.description = p.description) ∧
      (∀ t, getProp body "description" = JsVal.str t → p1.description = t) ∧
      (getProp body "category" = JsVal.undefined → p1.category = p.category) ∧
      (∀ t, getProp body "category" = JsVal.str t → p1.category = t) ∧
      (getProp body "discountPercent" = JsVal.undefined →
        p1.discountPercent = p.discountPercent) ∧
      (∀ q, getProp body "discountPercent" = JsVal.num q → p1.discountPercent = q) ∧
      (∀ t q, getProp body "discountPercent" = JsVal.str t → toNumber t = some q →
        p1.discountPercent = q) ∧
      (getProp body "merchant" = JsVal.undefined → p1.merchant = p.merchant) ∧
      (∀ t, getProp body "merchant" = JsVal.str t → p1.merchant = t) ∧
      (PerkOk p → PerkOk p1) := by
  obtain ⟨out, hc, -⟩ := validate_ok toNumber false _ _ _ _ (perkSchema_loop toNumber) hv
  obtain ⟨⟨r1, hr1, -⟩, ⟨r2, hr2, -⟩, ⟨r3, hr3, -⟩, ⟨r4, hr4, -⟩, ⟨r5, hr5, -⟩, -⟩ :=
    children_ok _ _ _ _ hc
  have ht := own_title _ body _ hr1
  have hd := own_text body "description" _ (by decide) hr2
  have hcat := own_category body _ hr3
  have hdis := own_discount toNumber body _ hr4
  have hm := own_text body "merchant" _ (by decide) hr5
  obtain ⟨y1, hy1, hy1u, hy1s⟩ := castOr_text p.title (getProp body "title") (by
    rcases ht with h | ⟨t, h, -⟩
    · exact Or.inl h
    · exact Or.inr ⟨t, h⟩)
  obtain ⟨y2, hy2, hy2u, hy2s⟩ := castOr_text p.description (getProp body "description") hd
  obtain ⟨y3, hy3, hy3u, hy3s⟩ := castOr_text p.category (getProp body "category") (by
    rcases hcat with h | ⟨t, h, -⟩
    · exact Or.inl h
    · exact Or.inr ⟨t, h⟩)
  obtain ⟨y4, hy4, hy4u, hy4n, hy4s⟩ :=
    castOr_number toNumber p.discountPercent (getProp body "discountPercent") (by
      rcases hdis with h | ⟨q, h, -⟩ | ⟨t, q, h, hq, -⟩
      · exact Or.inl h
      · exact Or.inr (Or.inl ⟨q, h⟩)
      · exact Or.inr (Or.inr ⟨t, q, h, hq⟩))
  obtain ⟨y5, hy5, hy5u, hy5s⟩ := castOr_text p.merchant (getProp body "merchant") hm
  refine ⟨⟨p.id, y1, y2, y3, y4, y5, p.createdAt⟩, ?_, rfl, rfl, hy1u, hy1s, hy2u, hy2s,
    hy3u, hy3s, hy4u, hy4n, hy4s, hy5u, hy5s, ?_⟩
  · simp only [setFields, getProp_updateFields body hwf _ (by decide : "title" ≠ "__proto__"),
      getProp_updateFields body hwf _ (by decide : "description" ≠ "__proto__"),
      getProp_updateFields body hwf _ (by decide : "category" ≠ "__proto__"),
      getProp_updateFields body hwf _ (by decide : "discountPercent" ≠ "__proto__"),
      getProp_updateFields body hwf _ (by decide : "merchant" ≠ "__proto__"),
      hy1, hy2, hy3, hy4, hy5]
  · rintro ⟨hp1, hp2, hp3, hp4⟩
    refine ⟨?_, ?_, ?_, ?_⟩
    · rcases ht with h | ⟨t, h, hlen⟩
      · show 2 ≤ jsLength y1
        rw [hy1u h]; exact hp1
      · show 2 ≤ jsLength y1
        rw [hy1s t h]; exact hlen
    · rcases hcat with h | ⟨t, h, hmem⟩
      · show y3 ∈ categories
        rw [hy3u h]; exact hp2
      · show y3 ∈ categories
        rw [hy3s t h]; exact hmem
    · rcases hdis with h | ⟨q, h, h0, -⟩ | ⟨t, q, h, hq, h0, -⟩
      · show 0 ≤ y4
        rw [hy4u h]; exact hp3
      · show 0 ≤ y4
        rw [hy4n q h]; exact h0
      · show 0 ≤ y4
        rw [hy4s t q h hq]; exact h0
    · rcases hdis with h | ⟨q, h, -, h1⟩ | ⟨t, q, h, hq, -, h1⟩
      · show y4 ≤ 100
        rw [hy4u h]; exact hp4
      · show y4 ≤ 100
        rw [hy4n q h]; exact h1
      · show y4 ≤ 100
        rw [hy4s t q h hq]; exact h1

theorem updatePerk_of_found (toNumber : String → Option ℚ) (s : Store) (id : Nat)
    (body : Obj) (value : JsObject) (p : Perk)
    (hfound : s.perks.find? (fun x => decide (x.id = id)) = some p)
    (hv : validate (perkSchema toNumber) updateOptions body = Except.ok value) :
    updatePerk toNumber (memDb toNumber) s id body =
      match Store.findByIdAndUpdate toNumber s id (updateFields body) with
      | Except.ok (updatedPerk, s1) => (Response.json 200 (ResBody.perk updatedPerk), s1)
      | Except.error err => (catchWrite err, s) := by
  simp only [updatePerk, memDb, Store.findById, hfound, hv]
  cases Store.findByIdAndUpdate toNumber s id (updateFields body) with
  | error err => rfl
  | ok r => rfl

theorem findByIdAndUpdate_of_found (toNumber : String → Option ℚ) (s : Store) (id : Nat)
    (updates : Obj) (p p1 : Perk)
    (hfound : s.perks.find? (fun x => decide (x.id = id)) = some p)
    (hset : setFields toNumber p updates = some p1) :
    Store.findByIdAndUpdate toNumber s id updates =
      if (p1.merchant ≠ p.merchant ∨ p1.title ≠ p.title) ∧ duplicateOf s.perks p1 = true then
        Except.error duplicateKeyError
      else Except.ok (some p1, ⟨replaceFirst id p1 s.perks, s.nextId, s.clock⟩) := by
  simp only [Store.findByIdAndUpdate, hfound, hset]

/-! ## Update -/

/-- C3: for a stored perk and a body that passes the validation of
`updatePerk`, when the store does not refuse the write as a duplicate the
answer is 200 with the prior record in which every supplied field holds the
supplied value and every other field its stored value, and that record is the
one stored; `discountPercent: 0` is applied as 0; the empty body answers 200
with the unchanged record and an unchanged store. -/
theorem updatePerk_frame (toNumber : String → Option ℚ) (s : Store) (id : Nat)
    (body : Obj) (value : JsObject) (p : Perk)
    (hfound : s.perks.find? (fun x => decide (x.id = id)) = some p)
    (hv : validate (perkSchema toNumber) updateOptions body = Except.ok value)
    (hwf : WellFormed body)
    (hfree : Store.findByIdAndUpdate toNumber s id (updateFields body)
      ≠ Except.error duplicateKeyError) :
    (∃ p1,
      updatePerk toNumber (memDb toNumber) s id body =
        (Response.json 200 (ResBody.perk (some p1)),
          ⟨replaceFirst id p1 s.perks, s.nextId, s.clock⟩) ∧
      Store.findById ⟨replaceFirst id p1 s.perks, s.nextId, s.clock⟩ id
        = Except.ok (some p1) ∧
      p1.id = p.id ∧ p1.createdAt = p.createdAt ∧
      (getProp body "title" = JsVal.undefined → p1.title = p.title) ∧
      (∀ t, getProp body "title" = JsVal.str t → p1.title = t) ∧
      (getProp body "description" = JsVal.undefined → p1.description = p.description) ∧
      (∀ t, getProp body "description" = JsVal.str t → p1.description = t) ∧
      (getProp body "category" = JsVal.undefined → p1.category = p.category) ∧
      (∀ t, getProp body "category" = JsVal.str t → p1.category = t) ∧
      (getProp body "discountPercent" = JsVal.undefined →
        p1.discountPercent = p.discountPercent) ∧
      (∀ q, getProp body "discountPercent" = JsVal.num q → p1.discountPercent = q) ∧
      (∀ t q, getProp body "discountPercent" = JsVal.str t → toNumber t = some q →
        p1.discountPercent = q) ∧
      (getProp body "merchant" = JsVal.undefined → p1.merchant = p.merchant) ∧
      (∀ t, getProp body "merchant" = JsVal.str t → p1.merchant = t)) ∧
    updatePerk toNumber (memDb toNumber) s id [("discountPercent", JsVal.num 0)] =
      (Response.json 200 (ResBody.perk
          (some ⟨p.id, p.title, p.description, p.category, 0, p.merchant, p.createdAt⟩)),
        ⟨replaceFirst id
            ⟨p.id, p.title, p.description, p.category, 0, p.merchant, p.createdAt⟩ s.perks,
          s.nextId, s.clock⟩) ∧
    updatePerk toNumber (memDb toNumber) s id [] = (Response.json 200 (ResBody.perk (some p)), s) := by
  refine ⟨?_, ?_, ?_⟩
  · obtain ⟨p1, hset, hid, hcr, hrest⟩ := setFields_of_valid toNumber p body value hv hwf
    have hupd := findByIdAndUpdate_of_found toNumber s id (updateFields body) p p1 hfound hset
    by_cases hdup :
        (p1.merchant ≠ p.merchant ∨ p1.title ≠ p.title) ∧ duplicateOf s.perks p1 = true
    · rw [if_pos hdup] at hupd
      exact absurd hupd hfree
    · rw [if_neg hdup] at hupd
      refine ⟨p1, ?_, ?_, hid, hcr, ?_⟩
      · rw [updatePerk_of_found toNumber s id body value p hfound hv, hupd]
      · unfold Store.findById
        rw [find_replaceFirst id p p1 s.perks hfound (hid.trans (id_of_find _ _ _ hfound).1)]
      · obtain ⟨h1, h2, h3, h4, h5, h6, h7, h8, h9, h10, h11, -⟩ := hrest
        exact ⟨h1, h2, h3, h4, h5, h6, h7, h8, h9, h10, h11⟩
  · have hv0 : validate (perkSchema toNumber) updateOptions [("discountPercent", JsVal.num 0)]
        = Except.ok ⟨[("discountPercent", JsVal.num 0), ("category", JsVal.str "other")],
            none⟩ := by
      rfl
    have hset : setFields toNumber p (updateFields [("discountPercent", JsVal.num 0)])
        = some ⟨p.id, p.title, p.description, p.category, 0, p.merchant, p.createdAt⟩ := rfl
    rw [updatePerk_of_found toNumber s id _ _ p hfound hv0,
      findByIdAndUpdate_of_found toNumber s id _ p _ hfound hset]
    simp
  · have hv0 : validate (perkSchema toNumber) updateOptions []
        = Except.ok ⟨[("category", JsVal.str "other"), ("discountPercent", JsVal.num 0)],
            none⟩ := rfl
    have hset : setFields toNumber p (updateFields []) = some p := rfl
    rw [updatePerk_of_found toNumber s id _ _ p hfound hv0,
      findByIdAndUpdate_of_found toNumber s id _ p _ hfound hset]
    simp [replaceFirst_self id p s.perks hfound]

/-- C4: when the identifier is not in the store, `updatePerk` answers 404
"Perk not found" for every body and leaves the store as it was; the body is
not looked at. -/
theorem updatePerk_not_found (toNumber : String → Option ℚ) (s : Store) (id : Nat)
    (body : Obj) (h : ∀ p ∈ s.perks, p.id ≠ id) :
    updatePerk toNumber (memDb toNumber) s id body
        = (Response.json 404 (ResBody.message "Perk not found"), s) ∧
      ∀ (σ : Type) (P : Persistence σ) (st : σ), P.findById st id = Except.ok none →
        updatePerk toNumber P st id body
          = (Response.json 404 (ResBody.message "Perk not found"), st) := by
  constructor
  · have hnone : s.perks.find? (fun x => decide (x.id = id)) = none := by
      rw [List.find?_eq_none]
      intro x hx
      simpa using h x hx
    simp [updatePerk, memDb, Store.findById, hnone]
  · intro σ P st hP
    simp [updatePerk, hP]

/-- C5: in `createPerk` and in `updatePerk`, a persistence write that throws
an error with code 11000 is answered 409 with a message and the error is not
handed to `next`; a persistence call that throws any other error hands that
error to `next` and no 409 is sent. The store state is kept. -/
theorem write_failure_outcome {σ : Type} (toNumber : String → Option ℚ) (P : Persistence σ)
    (s : σ) (id : Nat) (body : Obj) (err : DbError) :
    (isDuplicateKey err = true ↔ err.code = JsVal.num 11000) ∧
    (∀ value, validate (createPerkSchema toNumber) defaultOptions body = Except.ok value →
      P.create s value.own = Except.error err →
      (isDuplicateKey err = true → createPerk toNumber P s body =
        (Response.json 409 (ResBody.message "Duplicate perk for this merchant"), s)) ∧
      (isDuplicateKey err = false → createPerk toNumber P s body = (Response.next err, s))) ∧
    (∀ p value, P.findById s id = Except.ok (some p) →
      validate (perkSchema toNumber) updateOptions body = Except.ok value →
      P.findByIdAndUpdate s id (updateFields body) = Except.error err →
      (isDuplicateKey err = true → updatePerk toNumber P s id body =
        (Response.json 409 (ResBody.message "Duplicate perk for this merchant"), s)) ∧
      (isDuplicateKey err = false → updatePerk toNumber P s id body = (Response.next err, s))) ∧
    (P.findById s id = Except.error err → isDuplicateKey err = false →
      updatePerk toNumber P s id body = (Response.next err, s)) := by
  refine ⟨?_, ?_, ?_, ?_⟩
  · obtain ⟨code⟩ := err
    cases code <;> simp [isDuplicateKey]
  · intro value hv hfail
    rw [createPerk_of_ok toNumber P s body value hv, hfail]
    constructor
    · intro hd; simp [catchWrite, hd]
    · intro hd; simp [catchWrite, hd]
  · intro p value hf hv hfail
    constructor
    · intro hd; simp [updatePerk, hf, hv, hfail, catchWrite, hd]
    · intro hd; simp [updatePerk, hf, hv, hfail, catchWrite, hd]
  · intro hf hd
    simp [updatePerk, hf, catchWrite, hd]

/-! ## Filtering -/

theorem truthy_false_iff (v : JsVal) :
    truthy v = false ↔
      (v = JsVal.undefined ∨ v = JsVal.null ∨ v = JsVal.bool false ∨ v = JsVal.num 0 ∨
        v = JsVal.str "") := by
  cases v <;> simp [truthy]

/-- C7 (amended): `filterPerks` answers 400 "Title query parameter is
required" exactly when the `title` query parameter is falsy, that is missing
or the empty string (or `null`, `false`, `0`); every other value, a list
included, is handed to the lookup. For a non-empty string the answer is 200
with exactly the stored perks whose title equals the string, most recent
first. -/
theorem filterPerks_rule (toNumber : String → Option ℚ) (s : Store) (query : Obj)
    (t : String) (hq : getProp query "title" = JsVal.str t) (ht : t ≠ "") :
    (∃ r, filterPerks (memDb toNumber) s query = Response.json 200 (ResBody.perks r) ∧
      r.Perm (s.perks.filter (fun p => decide (p.title = t))) ∧
      (∀ p, p ∈ r ↔ p ∈ s.perks ∧ p.title = t) ∧
      r.Sorted newerFirst) ∧
    (∀ (σ : Type) (P : Persistence σ) (st : σ) (q : Obj),
      filterPerks P st q
          = Response.json 400 (ResBody.message "Title query parameter is required") ↔
        truthy (getProp q "title") = false) ∧
    (∀ v, truthy v = false ↔
      (v = JsVal.undefined ∨ v = JsVal.null ∨ v = JsVal.bool false ∨ v = JsVal.num 0 ∨
        v = JsVal.str "")) := by
  refine ⟨?_, ?_, truthy_false_iff⟩
  · haveI : IsTotal Perk newerFirst := ⟨fun a b => Nat.le_total b.createdAt a.createdAt⟩
    haveI : IsTrans Perk newerFirst := ⟨fun a b c hab hbc => Nat.le_trans hbc hab⟩
    refine ⟨(s.perks.filter (fun p => decide (p.title = t))).insertionSort newerFirst,
      ?_, List.perm_insertionSort _ _, ?_, List.sorted_insertionSort _ _⟩
    · simp [filterPerks, hq, truthy, ht, memDb, Store.find]
    · intro p
      rw [(List.perm_insertionSort newerFirst _).mem_iff]
      simp
  · intro σ P st q
    unfold filterPerks
    simp only
    by_cases htr : truthy (getProp q "title") = true
    · rw [if_pos htr]
      cases P.find st (getProp q "title") <;> simp [htr]
    · rw [if_neg htr]
      simpa using htr

/-! ## The store invariant -/

theorem newPerk_ok (toNumber : String → Option ℚ) (id createdAt : Nat) (body : Obj)
    (value : JsObject) (p : Perk)
    (hv : validate (createPerkSchema toNumber) defaultOptions body = Except.ok value)
    (hnew : newPerk toNumber id createdAt value.own = some p) : PerkOk p := by
  obtain ⟨out, hc, hu⟩ :=
    validate_ok toNumber true _ _ _ _ (createPerkSchema_loop toNumber) hv
  obtain ⟨⟨r1, hr1, hg1⟩, ⟨r2, hr2, hg2⟩, ⟨r3, hr3, hg3⟩, ⟨r4, hr4, hg4⟩, ⟨r5, hr5, hg5⟩, -⟩ :=
    children_ok _ _ _ _ hc
  obtain ⟨hval, -⟩ := handleUnknown_default_ok _ _ hu
  subst hval
  have ht : ∃ t, r1 = JsVal.str t ∧ 2 ≤ jsLength t := by
    rcases title_ok _ _ _ hr1 with ⟨-, h, -⟩ | ⟨t, -, h, hl⟩
    · cases h
    · exact ⟨t, h, hl⟩
  have hcat : ∃ c, r3 = JsVal.str c ∧ c ∈ categories := by
    rcases category_ok _ _ hr3 with ⟨-, h⟩ | ⟨c, -, h, hm⟩
    · exact ⟨"other", h, by decide⟩
    · exact ⟨c, h, hm⟩
  have hdis : ∃ q, r4 = JsVal.num q ∧ 0 ≤ q ∧ q ≤ 100 := by
    rcases discount_ok _ _ _ hr4 with ⟨-, h⟩ | ⟨q, -, h, h0, h1⟩ | ⟨t, q, -, -, h, h0, h1⟩
    · exact ⟨0, h, le_refl _, by norm_num⟩
    · exact ⟨q, h, h0, h1⟩
    · exact ⟨q, h, h0, h1⟩
  obtain ⟨t, rfl, hlen⟩ := ht
  obtain ⟨c, rfl, hmem⟩ := hcat
  obtain ⟨q, rfl, h0, h1⟩ := hdis
  unfold newPerk at hnew
  rw [hg1, hg3, hg4] at hnew
  cases hd : castOr castText (some "") (getProp value.own "description") with
  | none => rw [hd] at hnew; simp [castOr, castText, castNumber] at hnew
  | some d =>
    cases hm : castOr castText (some "") (getProp value.own "merchant") with
    | none => rw [hd, hm] at hnew; simp [castOr, castText, castNumber] at hnew
    | some m =>
      rw [hd, hm] at hnew
      simp only [castOr, castText, castNumber, Option.some.injEq] at hnew
      subst hnew
      exact ⟨hlen, hmem, h0, h1⟩

/-- C9: if every stored record has a title of at least 2 characters, a
category of the enumeration and a discount between 0 and 100, then so does
every record of the store after `createPerk` and after `updatePerk`, whatever
the input and whatever the outcome. -/
theorem store_invariant (toNumber : String → Option ℚ) (s : Store) (id : Nat)
    (created updated : Obj) (hwf : WellFormed updated)
    (hinv : ∀ p ∈ s.perks, PerkOk p) :
    (∀ p ∈ (createPerk toNumber (memDb toNumber) s created).2.perks, PerkOk p) ∧
    (∀ p ∈ (updatePerk toNumber (memDb toNumber) s id updated).2.perks, PerkOk p) := by
  constructor
  · cases hv : validate (createPerkSchema toNumber) defaultOptions created with
    | error e =>
      rw [createPerk_of_error toNumber _ s created e hv]
      exact hinv
    | ok value =>
      rw [createPerk_of_ok toNumber _ s created value hv]
      simp only [memDb, Store.create]
      cases hnew : newPerk toNumber s.nextId s.clock value.own with
      | none => exact hinv
      | some p0 =>
        simp only
        by_cases hdup : duplicateOf s.perks p0 = true
        · rw [if_pos hdup]
          exact hinv
        · rw [if_neg hdup]
          intro p hp
          simp only [List.mem_append, List.mem_singleton] at hp
          rcases hp with hp | rfl
          · exact hinv p hp
          · exact newPerk_ok toNumber _ _ created value p hv hnew
  · cases hfound : s.perks.find? (fun x => decide (x.id = id)) with
    | none =>
      simp only [updatePerk, memDb, Store.findById, hfound]
      exact hinv
    | some p0 =>
      cases hv : validate (perkSchema toNumber) updateOptions updated with
      | error e =>
        simp only [updatePerk, memDb, Store.findById, hfound, hv]
        exact hinv
      | ok value =>
        obtain ⟨p1, hset, -, -, -, -, -, -, -, -, -, -, -, -, -, hok⟩ :=
          setFields_of_valid toNumber p0 updated value hv hwf
        rw [updatePerk_of_found toNumber s id updated value p0 hfound hv,
          findByIdAndUpdate_of_found toNumber s id _ p0 p1 hfound hset]
        split_ifs
        · exact hinv
        · intro p hp
          rcases mem_replaceFirst id p1 s.perks p hp with rfl | hp
          · exact hok (hinv p0 (id_of_find _ _ _ hfound).2)
          · exact hinv p hp

/-! ## What the update validation yields and what is written -/

/-- C10 (amended): the validation step of `updatePerk` still applies the two
defaults. The own fields of the normalized value are fields of the schema;
each defined one was read from the body by the validator or is the default
`category: "other"` or `discountPercent: 0`. A body from which no category is
read gets "other" and one from which no discount is read gets 0 in the
normalized value. What the validator reads for a key is the own entry of the
body, else the entry of an object given under `__proto__`, else nothing. -/
theorem update_validation_defaults (toNumber : String → Option ℚ) (body : Obj)
    (value : JsObject)
    (hv : validate (perkSchema toNumber) updateOptions body = Except.ok value) :
    (∀ k ∈ objectKeys value.own, k ∈ schemaKeys) ∧
    (∀ k ∈ schemaKeys, isDefined (getProp value.own k) = true →
      isDefined (readProp (cloneObject body) k) = true ∨
        (k = "category" ∧ getProp value.own k = JsVal.str "other") ∨
        (k = "discountPercent" ∧ getProp value.own k = JsVal.num 0)) ∧
    (readProp (cloneObject body) "category" = JsVal.undefined →
      getProp value.own "category" = JsVal.str "other") ∧
    (readProp (cloneObject body) "discountPercent" = JsVal.undefined →
      getProp value.own "discountPercent" = JsVal.num 0) ∧
    (∀ k ∈ schemaKeys, k ∈ objectKeys body →
      readProp (cloneObject body) k = getProp body k) ∧
    (∀ k ∈ schemaKeys, ∀ props, k ∉ objectKeys body →
      getProp body "__proto__" = JsVal.obj props →
      readProp (cloneObject body) k = getProp props k) ∧
    ∀ k ∈ schemaKeys, k ∉ objectKeys body →
      (∀ props, getProp body "__proto__" ≠ JsVal.obj props) →
      readProp (cloneObject body) k = JsVal.undefined := by
  obtain ⟨out, hc, hu⟩ := validate_ok toNumber false _ _ _ _ (perkSchema_loop toNumber) hv
  rw [handleUnknown_update] at hu
  simp only [Except.ok.injEq] at hu
  subst hu
  obtain ⟨⟨r1, hr1, hg1⟩, ⟨r2, hr2, hg2⟩, ⟨r3, hr3, hg3⟩, ⟨r4, hr4, hg4⟩, ⟨r5, hr5, hg5⟩, -⟩ :=
    children_ok _ _ _ _ hc
  have hget : ∀ k, k ∈ schemaKeys →
      getProp (out.own.filter (fun e => decide (e.1 ∈ schemaKeys))) k = getProp out.own k := by
    intro k hk
    rw [getProp_filter out.own (fun a => decide (a ∈ schemaKeys)) k]
    simp [hk]
  refine ⟨?_, ?_, ?_, ?_,
    fun k hk hm => readProp_clone_of_mem body k (schemaKey_ne_proto k hk) hm,
    fun k _ props hm hp => readProp_clone_of_proto body k props hm hp,
    fun k _ => readProp_clone_of_absent body k⟩
  · intro k hk
    have h := (mem_objectKeys_filter out.own (fun a => decide (a ∈ schemaKeys)) k).1 hk
    simpa using h.2
  · intro k hks hk
    simp only at hk ⊢
    rw [hget k hks] at hk ⊢
    simp only [schemaKeys, List.mem_cons, List.mem_singleton, List.not_mem_nil,
      or_false] at hks
    rcases hks with rfl | rfl | rfl | rfl | rfl
    · rcases title_ok _ _ _ hr1 with ⟨-, -, h⟩ | ⟨t, h, -⟩
      · rw [hg1, h] at hk; cases hk
      · left; rw [h]; rfl
    · rcases text_ok _ _ _ hr2 with ⟨-, h⟩ | ⟨t, h, -⟩
      · rw [hg2, h] at hk; cases hk
      · left; rw [h]; rfl
    · rcases category_ok _ _ hr3 with ⟨-, h⟩ | ⟨t, h, -⟩
      · right; left; exact ⟨rfl, by rw [hg3, h]⟩
      · left; rw [h]; rfl
    · rcases discount_ok _ _ _ hr4 with ⟨-, h⟩ | ⟨q, h, -⟩ | ⟨t, q, h, -⟩
      · right; right; exact ⟨rfl, by rw [hg4, h]⟩
      · left; rw [h]; rfl
      · left; rw [h]; rfl
    · rcases text_ok _ _ _ hr5 with ⟨-, h⟩ | ⟨t, h, -⟩
      · rw [hg5, h] at hk; cases hk
      · left; rw [h]; rfl
  · intro hb
    simp only
    rw [hget _ (by decide), hg3]
    rw [hb] at hr3
    rcases category_ok _ _ hr3 with ⟨-, h⟩ | ⟨t, h, -⟩
    · exact h
    · cases h
  · intro hb
    simp only
    rw [hget _ (by decide), hg4]
    rw [hb] at hr4
    rcases discount_ok _ _ _ hr4 with ⟨-, h⟩ | ⟨q, h, -⟩ | ⟨t, q, h, -⟩
    · exact h
    · cases h
    · cases h

/-- C2, at the body with `title: "New"` and the undeclared key `featured`:
the validation step strips `featured` from its normalized value, yet the
field set `updatePerk` hands to the write is the raw body, `featured`
included. -/
theorem updatePerk_writes_unknown_key :
    validate (perkSchema noText) updateOptions
        [("title", JsVal.str "New"), ("featured", JsVal.bool true)]
      = Except.ok ⟨[("title", JsVal.str "New"), ("category", JsVal.str "other"),
          ("discountPercent", JsVal.num 0)], none⟩ ∧
    updatePerk noText recordingDb [] 1
        [("title", JsVal.str "New"), ("featured", JsVal.bool true)]
      = (Response.json 200 (ResBody.perk (some samplePerk)),
          [[("title", JsVal.str "New"), ("featured", JsVal.bool true)]]) :=
  ⟨rfl, rfl⟩

/-- C1 as stated fails in both directions: the title 12 is present and is not
a text of fewer than 2 characters, yet the answer is 400; and a body with no
own title but the title "ab" inside an object under `__proto__` is answered
201 and inserted. -/
theorem createPerk_title_not_text :
    (othersValid noText [("title", JsVal.num 12)] = true ∧
      (createPerk noText (memDb noText) sampleStore [("title", JsVal.num 12)]).1.status
        = some 400 ∧
      getProp [("title", JsVal.num 12)] "title" ≠ JsVal.undefined ∧
      ¬ ∃ t, getProp [("title", JsVal.num 12)] "title" = JsVal.str t ∧ jsLength t < 2) ∧
    ("title" ∉ objectKeys [("__proto__", JsVal.obj [("title", JsVal.str "ab")])] ∧
      createPerk noText (memDb noText) sampleStore
          [("__proto__", JsVal.obj [("title", JsVal.str "ab")])]
        = (Response.json 201 (ResBody.perk (some ⟨2, "ab", "", "other", 0, "", 11⟩)),
            ⟨[samplePerk, ⟨2, "ab", "", "other", 0, "", 11⟩], 3, 12⟩)) := by
  refine ⟨⟨rfl, rfl, ?_, ?_⟩, by decide, rfl⟩
  · intro h
    cases h
  · rintro ⟨t, h, -⟩
    cases h

/-- C6 as stated fails for a body that omits `category` and carries one
inside an object under `__proto__`: the field set handed to the insert has
the category "tech", not "other". -/
theorem createPerk_category_from_prototype :
    getProp [("title", JsVal.str "ab"), ("__proto__", JsVal.obj [("category", JsVal.str "tech")])]
        "category" = JsVal.undefined ∧
    createPerk noText recordingDb []
        [("title", JsVal.str "ab"), ("__proto__", JsVal.obj [("category", JsVal.str "tech")])]
      = (Response.json 201 (ResBody.perk (some samplePerk)),
          [[("title", JsVal.str "ab"), ("category", JsVal.str "tech"),
            ("discountPercent", JsVal.num 0)]]) :=
  ⟨rfl, rfl⟩

/-- C8 as stated fails for the key `__proto__`: it lies outside the schema,
yet the body is answered 201 and the record is inserted. -/
theorem createPerk_accepts_proto_key :
    "__proto__" ∈ objectKeys
        [("title", JsVal.str "ab"), ("__proto__", JsVal.obj [("admin", JsVal.bool true)])] ∧
    "__proto__" ∉ schemaKeys ∧
    createPerk noText (memDb noText) sampleStore
        [("title", JsVal.str "ab"), ("__proto__", JsVal.obj [("admin", JsVal.bool true)])]
      = (Response.json 201 (ResBody.perk (some ⟨2, "ab", "", "other", 0, "", 11⟩)),
          ⟨[samplePerk, ⟨2, "ab", "", "other", 0, "", 11⟩], 3, 12⟩) :=
  ⟨by decide, by decide, rfl⟩

/-- C7 as stated fails for a list: the request with `title` a one-element
list is not answered 400. -/
theorem filterPerks_list_not_rejected :
    filterPerks (memDb noText) sampleStore [("title", JsVal.arr [JsVal.str "Gym pass"])]
      ≠ Response.json 400 (ResBody.message "Title query parameter is required") := by
  intro h
  cases h

/-- C10 as stated fails for the body with a title only: the normalized value
of the update validation holds `category: "other"` and `discountPercent: 0`. -/
theorem update_validation_adds_defaults :
    validate (perkSchema noText) updateOptions [("title", JsVal.str "New")]
      = Except.ok ⟨[("title", JsVal.str "New"), ("category", JsVal.str "other"),
          ("discountPercent", JsVal.num 0)], none⟩ :=
  rfl

/-! ## The theorems at concrete inputs -/

theorem createPerk_title_rule_witness :
    othersValid noText [("title", JsVal.str "a")] = true ∧
    (createPerk noText (memDb noText) sampleStore [("title", JsVal.str "a")]).1.status
      = some 400 :=
  ⟨rfl,
    ((createPerk_title_rule noText (memDb noText) sampleStore [("title", JsVal.str "a")]
      rfl).1).2 (Or.inr (Or.inr ⟨"a", rfl, by decide⟩))⟩

theorem createPerk_defaults_witness :
    ∃ value,
      validate (createPerkSchema noText) defaultOptions [("title", JsVal.str "ab")]
        = Except.ok value ∧
      getProp value.own "category" = JsVal.str "other" ∧
      getProp value.own "discountPercent" = JsVal.num 0 := by
  rcases createPerk_defaults noText (memDb noText) sampleStore [("title", JsVal.str "ab")]
    with ⟨e, h⟩ | ⟨value, hv, -, hc, hd, -⟩
  · cases h
  · exact ⟨value, hv, hc rfl, hd rfl⟩

theorem createPerk_rejects_unknown_witness :
    "featured" ∉ schemaKeys ∧
    ∃ e, createPerk noText (memDb noText) sampleStore
        [("title", JsVal.str "ab"), ("featured", JsVal.bool true)]
      = (Response.json 400 (ResBody.invalid e), sampleStore) :=
  ⟨by decide, createPerk_rejects_unknown noText (memDb noText) sampleStore
    [("title", JsVal.str "ab"), ("featured", JsVal.bool true)] "featured"
    (by simp [objectKeys]) (by decide) (by decide)⟩

theorem updatePerk_frame_witness :
    WellFormed [("title", JsVal.str "Spa day"), ("discountPercent", JsVal.num 0)] ∧
    ∃ p1,
      updatePerk noText (memDb noText) sampleStore 1
          [("title", JsVal.str "Spa day"), ("discountPercent", JsVal.num 0)]
        = (Response.json 200 (ResBody.perk (some p1)),
            ⟨replaceFirst 1 p1 sampleStore.perks, sampleStore.nextId, sampleStore.clock⟩) ∧
      p1.title = "Spa day" ∧ p1.discountPercent = 0 ∧ p1.merchant = samplePerk.merchant :=
  ⟨by simp [WellFormed, objectKeys],
    match (updatePerk_frame noText sampleStore 1
      [("title", JsVal.str "Spa day"), ("discountPercent", JsVal.num 0)]
      ⟨[("title", JsVal.str "Spa day"), ("discountPercent", JsVal.num 0),
        ("category", JsVal.str "other")], none⟩
      samplePerk rfl rfl (by simp [WellFormed, objectKeys])
      (by intro h; cases h)).1 with
    | ⟨p1, h1, _, _, _, _, ht, _, _, _, _, _, hq, _, hm, _⟩ =>
      ⟨p1, h1, ht "Spa day" rfl, hq 0 rfl, hm rfl⟩⟩

theorem updatePerk_not_found_witness :
    (∀ p ∈ sampleStore.perks, p.id ≠ 7) ∧
    updatePerk noText (memDb noText) sampleStore 7 [("title", JsVal.num 3)]
      = (Response.json 404 (ResBody.message "Perk not found"), sampleStore) :=
  ⟨by simp [sampleStore, samplePerk],
    (updatePerk_not_found noText sampleStore 7 [("title", JsVal.num 3)]
      (by simp [sampleStore, samplePerk])).1⟩

theorem write_failure_outcome_witness :
    createPerk noText (failingDb duplicateKeyError) () [("title", JsVal.str "ab")]
      = (Response.json 409 (ResBody.message "Duplicate perk for this merchant"), ()) ∧
    updatePerk noText (failingDb castError) () 1 [("title", JsVal.str "ab")]
      = (Response.next castError, ()) :=
  ⟨((write_failure_outcome noText (failingDb duplicateKeyError) () 1
      [("title", JsVal.str "ab")] duplicateKeyError).2.1 _ rfl rfl).1
      (by simp [isDuplicateKey, duplicateKeyError]),
    ((write_failure_outcome noText (failingDb castError) () 1
      [("title", JsVal.str "ab")] castError).2.2.1 samplePerk _ rfl rfl rfl).2 rfl⟩

theorem filterPerks_rule_witness :
    getProp [("title", JsVal.str "Gym pass")] "title" = JsVal.str "Gym pass" ∧
    ∃ r, filterPerks (memDb noText) sampleStore [("title", JsVal.str "Gym pass")]
        = Response.json 200 (ResBody.perks r) ∧
      (∀ p, p ∈ r ↔ p ∈ sampleStore.perks ∧ p.title = "Gym pass") :=
  ⟨rfl,
    match (filterPerks_rule noText sampleStore [("title", JsVal.str "Gym pass")] "Gym pass"
      rfl (by decide)).1 with
    | ⟨r, h1, _, h3, _⟩ => ⟨r, h1, h3⟩⟩

theorem samplePerk_ok : PerkOk samplePerk := by
  refine ⟨by decide, by decide, ?_, ?_⟩
  · simp [samplePerk]
  · simp only [samplePerk]; norm_num

theorem store_invariant_witness :
    WellFormed [("discountPercent", JsVal.num 0)] ∧
    ∀ p ∈ (updatePerk noText (memDb noText) sampleStore 1
        [("discountPercent", JsVal.num 0)]).2.perks, PerkOk p :=
  ⟨by simp [WellFormed, objectKeys],
    (store_invariant noText sampleStore 1 [("title", JsVal.str "ab")]
      [("discountPercent", JsVal.num 0)] (by simp [WellFormed, objectKeys])
      (by
        intro p hp
        have : p = samplePerk := by simpa [sampleStore] using hp
        rw [this]
        exact samplePerk_ok)).2⟩

theorem update_validation_defaults_witness :
    validate (perkSchema noText) updateOptions [("title", JsVal.str "New")]
      = Except.ok ⟨[("title", JsVal.str "New"), ("category", JsVal.str "other"),
          ("discountPercent", JsVal.num 0)], none⟩ ∧
    getProp [("title", JsVal.str "New"), ("category", JsVal.str "other"),
        ("discountPercent", JsVal.num 0)] "category" = JsVal.str "other" :=
  ⟨rfl,
    (update_validation_defaults noText [("title", JsVal.str "New")]
      ⟨[("title", JsVal.str "New"), ("category", JsVal.str "other"),
        ("discountPercent", JsVal.num 0)], none⟩ rfl).2.2.1 rfl⟩

end PerkController
